import Mathlib

/-!
Eco-Gamify backend: submission scoring, approval and reward accrual

A shallow embedding of `eco-gamify-backend/server.js`.

* The three Mongo collections are lists of documents; `findById` is the first
  document with the given `_id`, `save` replaces the documents with that `_id`.
* Route handlers are functions from the store (and the request) to the new
  store and the HTTP response.  A thrown exception is the `500` response of the
  handler's `catch` block, with whatever was saved before the throw kept.
* A JavaScript `Number` is an IEEE 754 double.  A label confidence is a `Dbl`:
  the integer number of units of `2^-1074` that the double holds; sums,
  quotients and products are rounded to the nearest double, ties to even, as
  the source's `+`, `/` and `*` are, and `Math.round x` is `⌊x + 1/2⌋`, exact.
  Points are integer-valued and are kept as integers; `jsAdd` is the rounded
  sum.  Magnitudes of `2^1024` and more, where the source holds `Infinity`,
  are not modelled.
* A path `id` is an `IdParam`: an ObjectId, or a string that is none, on
  which `findById` throws.  `createSubmission` and `reviewSubmission` are the
  handlers for an id that is an ObjectId; `postSubmission` and
  `patchSubmission` are the handlers for any path `id`.
* `String.prototype.toLowerCase` is a parameter `toLowerCase` of the
  definitions that use it; `asciiLower` is the instance used on ASCII data.
* The labeler of the source is a stub with a fixed annotation list; the
  matcher is embedded over an arbitrary annotation list, and the stub is the
  instance `mockLabelDetectionWithScore`.
-/

namespace EcoGamify

/-! ## Numbers -/

/-- The position of the highest set bit of `n` (0 for 0), for `n < 2^4096`,
found by bisection on the shift. -/
def ilog2 (n : Nat) : Nat :=
  [2048, 1024, 512, 256, 128, 64, 32, 16, 8, 4, 2, 1].foldl
    (fun k step => if n >>> (k + step) = 0 then k else k + step) 0

/-- The quotient `a / b` rounded to 53 significant bits, to the nearest, ties
to even: `s` low bits of the quotient are dropped, `q` are the bits kept and
`r` is what was dropped. -/
def roundRatio (a b : Nat) : Nat :=
  let s := ilog2 (a / b) - 52
  let d := b <<< s
  let q := a / d
  let r := a % d
  if 2 * r < d then q <<< s
  else if d < 2 * r then (q + 1) <<< s
  else if q % 2 = 0 then q <<< s
  else (q + 1) <<< s

/-- The same for an integer numerator: rounding is symmetric about 0. -/
def roundInt (num : Int) (den : Nat) : Int :=
  if 0 ≤ num then (roundRatio num.toNat den : Int) else -(roundRatio (-num).toNat den : Int)

/-- Model of `+` on two integer-valued `Number`s: the sum as a double. -/
def jsAdd (a b : Int) : Int :=
  roundInt (a + b) 1

/-- A finite double, as the integer number of units of `2^-1074` it holds. -/
structure Dbl where
  units : Int
  deriving DecidableEq, Repr

/-- The number of units in 1. -/
def Dbl.unit : Nat := 1 <<< 1074

/-- The rational number a double stands for. -/
def Dbl.toRat (d : Dbl) : ℚ := (d.units : ℚ) / (2 : ℚ) ^ 1074

/-- The double of the decimal literal `n / d`, e.g. `0.82` is `ofDecimal 82 100`. -/
def Dbl.ofDecimal (n : Int) (d : Nat) : Dbl :=
  ⟨roundInt (n * Dbl.unit) d⟩

/-- Model of `+` on doubles. -/
def Dbl.add (a b : Dbl) : Dbl :=
  ⟨roundInt (a.units + b.units) 1⟩

/-- Model of `/` of a double by an array length (an integer below `2^32`). -/
def Dbl.divNat (a : Dbl) (n : Nat) : Dbl :=
  ⟨roundInt a.units n⟩

/-- Model of `*` of a double by an integer literal below `2^53`. -/
def Dbl.mulNat (a : Dbl) (n : Nat) : Dbl :=
  ⟨roundInt (a.units * n) 1⟩

/-- The value `avg * 100` of the matcher for a non-empty list of scores: the
scores are added from the left starting at 0, the sum is divided by their
number, and the mean is multiplied by 100, each step rounded to a double. -/
def percentMean (scores : List Dbl) : Dbl :=
  let avg := Dbl.divNat (scores.foldl (fun s x => Dbl.add s x) ⟨0⟩) scores.length
  Dbl.mulNat avg 100

/-- Model of `Math.round`: the nearest integer, halves rounded up. -/
def Math_round (x : Dbl) : Int :=
  (2 * x.units + Dbl.unit) / (2 * Dbl.unit)

/-! ## Schemas -/

/-- Values of `role` in `userSchema`. -/
inductive Role where
  | student
  | admin
  deriving DecidableEq, Repr

/-- Values of `status` in `submissionSchema`. -/
inductive Status where
  | pending
  | approved
  | rejected
  deriving DecidableEq, Repr

/-- Document of `userSchema`. -/
structure User where
  _id : Nat
  name : String
  email : String
  passwordHash : String
  role : Role
  points : Int
  badges : List String
  deriving DecidableEq, Repr

/-- Document of `taskSchema`.  No field is required: `points` may be missing. -/
structure Task where
  _id : Nat
  title : String
  description : String
  category : String
  points : Option Int
  expectedLabels : List String
  deadline : Option Nat
  isActive : Bool
  createdBy : Option Nat
  deriving DecidableEq, Repr

/-- Document of `submissionSchema`. -/
structure Submission where
  _id : Nat
  student : Nat
  task : Nat
  imageUrl : String
  status : Status
  labels : List String
  aiScore : Int
  createdAt : Nat
  deriving DecidableEq, Repr

/-- The database: the three collections and the next fresh `_id`. -/
structure Store where
  users : List User
  tasks : List Task
  submissions : List Submission
  nextId : Nat
  deriving DecidableEq, Repr

/-- A label annotation `{ description, score }` returned by the labeler. -/
structure Annotation where
  description : String
  score : Dbl
  deriving DecidableEq, Repr

/-- The result `{ labels, aiScore }` of the matcher. -/
structure Detection where
  labels : List String
  aiScore : Int

/-- The file object `req.file` that multer attaches to the request. -/
structure UploadedFile where
  filename : String
  path : String
  deriving DecidableEq, Repr

/-- Outcome of a handler: `res.json body` or `res.status code` with a message. -/
inductive Response (α : Type) where
  | ok (body : α)
  | error (code : Nat) (message : String)
  deriving DecidableEq, Repr

/-- The string of a stored status. -/
def Status.toString : Status → String
  | .pending => "pending"
  | .approved => "approved"
  | .rejected => "rejected"

/-- The enum validator of `status`: the stored status a string denotes. -/
def Status.ofString? (s : String) : Option Status :=
  if s = "pending" then some .pending
  else if s = "approved" then some .approved
  else if s = "rejected" then some .rejected
  else none

/-! ## Collections -/

/-- Model of `User.findById`. -/
def findUser (s : Store) (id : Nat) : Option User :=
  s.users.find? (fun u => u._id == id)

/-- Model of `Task.findById`. -/
def findTask (s : Store) (id : Nat) : Option Task :=
  s.tasks.find? (fun t => t._id == id)

/-- Model of `Submission.findById`. -/
def findSubmission (s : Store) (id : Nat) : Option Submission :=
  s.submissions.find? (fun x => x._id == id)

/-- Model of `user.save()`: the stored document with this `_id` is replaced. -/
def saveUser (s : Store) (u : User) : Store :=
  { s with users := s.users.map (fun x => if x._id == u._id then u else x) }

/-- Model of `sub.save()`: the stored document with this `_id` is replaced. -/
def saveSubmission (s : Store) (sub : Submission) : Store :=
  { s with submissions := s.submissions.map (fun x => if x._id == sub._id then sub else x) }

/-! ## Label matcher -/

/-- ASCII lower-casing of a string, character by character. -/
def asciiLower (s : String) : String :=
  String.mk (s.data.map Char.toLower)

/-- The scores of the annotations whose lower-cased description is among the
lower-cased expected labels (`matchedScores` in the source). -/
def matchedScores (toLowerCase : String → String) (annotations : List Annotation)
    (expectedLabels : List String) : List Dbl :=
  let expected := expectedLabels.map toLowerCase
  (annotations.filter (fun a => expected.contains (toLowerCase a.description))).map
    (fun a => a.score)

/-- The body of `mockLabelDetectionWithScore` over an arbitrary annotation list. -/
def labelDetectionWithScore (toLowerCase : String → String) (annotations : List Annotation)
    (expectedLabels : List String) : Detection :=
  let labels := annotations.map (fun a => a.description)
  let ms := matchedScores toLowerCase annotations expectedLabels
  let aiScore : Int :=
    if ms.length > 0 then
      Math_round (percentMean ms)
    else 0
  { labels := labels, aiScore := aiScore }

/-- The fixed annotations of the stub labeler. -/
def stubAnnotations : List Annotation :=
  [⟨"tree", Dbl.ofDecimal 90 100⟩, ⟨"plant", Dbl.ofDecimal 82 100⟩,
    ⟨"environment", Dbl.ofDecimal 75 100⟩]

/-- The stub labeler of the source: the file path is ignored. -/
def mockLabelDetectionWithScore (toLowerCase : String → String) (_filePath : String)
    (expectedLabels : List String) : Detection :=
  labelDetectionWithScore toLowerCase stubAnnotations expectedLabels

/-! ## Submission creation -/

/-- Whether some detected label is among the expected labels (`matched`). -/
def labelsMatched (toLowerCase : String → String) (labels expectedLabels : List String) : Bool :=
  let expected := expectedLabels.map toLowerCase
  labels.any (fun l => expected.contains (toLowerCase l))

/-- The status a new submission gets from the match and the score. -/
def initialStatus (matched : Bool) (aiScore : Int) : Status :=
  if matched && decide (aiScore ≥ 60) then .approved else .pending

/-- The badge updates made after points are credited at creation. -/
def awardBadges (user : User) : User :=
  let user1 :=
    if decide (user.points ≥ 50) && !user.badges.contains "Green Beginner" then
      { user with badges := user.badges ++ ["Green Beginner"] }
    else user
  if decide (user1.points ≥ 200) && !user1.badges.contains "Eco Warrior" then
    { user1 with badges := user1.badges ++ ["Eco Warrior"] }
  else user1

/-- The document handed to `Submission.create` by the creation handler. -/
def newSubmission (toLowerCase : String → String) (s : Store) (userId taskId : Nat)
    (task : Task) (file : UploadedFile) (annotations : List Annotation) (now : Nat) : Submission :=
  let d := labelDetectionWithScore toLowerCase annotations task.expectedLabels
  { _id := s.nextId
    student := userId
    task := taskId
    imageUrl := "/uploads/" ++ file.filename
    status := initialStatus (labelsMatched toLowerCase d.labels task.expectedLabels) d.aiScore
    labels := d.labels
    aiScore := d.aiScore
    createdAt := now }

/-- Model of `Submission.create`: the document is stored and the fresh `_id`
is used up. -/
def insertSubmission (s : Store) (sub : Submission) : Store :=
  { s with submissions := s.submissions ++ [sub], nextId := s.nextId + 1 }

/-- Handler of `POST /api/submissions/:taskId`, after the auth middleware, for
a `taskId` that is an ObjectId: `userId` is `req.user.id`, `file` is
`req.file`, `annotations` is what the labeler returns for the upload and `now`
is the clock.  A task without `points` makes the credited points `NaN`, which
`user.save()` refuses. -/
def createSubmission (toLowerCase : String → String) (s : Store) (userId taskId : Nat)
    (file : Option UploadedFile) (annotations : List Annotation) (now : Nat) :
    Store × Response Submission :=
  match findTask s taskId with
  | none => (s, .error 404 "Task not found")
  | some task =>
    match file with
    | none => (s, .error 500 "Error")
    | some f =>
      let submission := newSubmission toLowerCase s userId taskId task f annotations now
      let s1 := insertSubmission s submission
      if submission.status = .approved then
        match findUser s1 userId with
        | none => (s1, .error 500 "Error")
        | some user =>
          match task.points with
          | none => (s1, .error 500 "Error")
          | some p =>
            let user1 := { user with points := jsAdd user.points p }
            (saveUser s1 (awardBadges user1), .ok submission)
      else (s1, .ok submission)

/-! ## Admin review -/

/-- Handler of `PATCH /api/submissions/:id`, after the auth middleware, for an
`id` that is an ObjectId: `status` is the string in `req.body.status`. -/
def reviewSubmission (s : Store) (id : Nat) (status : String) : Store × Response Submission :=
  match findSubmission s id with
  | none => (s, .error 404 "Not found")
  | some sub =>
    let credited : Option Store :=
      if sub.status ≠ .approved ∧ status = "approved" then
        match findUser s sub.student, findTask s sub.task with
        | some user, some task =>
          match task.points with
          | some p => some (saveUser s { user with points := jsAdd user.points p })
          | none => none
        | _, _ => none
      else some s
    match credited with
    | none => (s, .error 500 "Error")
    | some s1 =>
      match Status.ofString? status with
      | none => (s1, .error 500 "Error")
      | some st =>
        let sub1 := { sub with status := st }
        (saveSubmission s1 sub1, .ok sub1)

/-! ## Leaderboard -/

/-- A row of the leaderboard: the selected fields `name points badges`. -/
structure LeaderboardEntry where
  _id : Nat
  name : String
  points : Int
  badges : List String
  deriving DecidableEq, Repr

/-- The projection `.select('name points badges')` (the `_id` is always kept). -/
def selectEntry (u : User) : LeaderboardEntry :=
  { _id := u._id, name := u.name, points := u.points, badges := u.badges }

/-- Handler of `GET /api/leaderboard`: students, by points descending.  The
order of equal points is left to the database; insertion sort fixes one. -/
def leaderboard (s : Store) : Store × Response (List LeaderboardEntry) :=
  let students := s.users.filter (fun u => u.role == Role.student)
  let sorted := students.insertionSort (fun a b => a.points ≥ b.points)
  (s, .ok (sorted.map selectEntry))


/-! ## Tasks -/

/-- The fields of `req.body` that the task creation handler reads. -/
structure TaskBody where
  title : String
  description : String
  category : String
  points : Option Int
  expectedLabels : List String
  deadline : Option Nat
  deriving DecidableEq, Repr

/-- Handler of `POST /api/tasks`, after the auth middleware: `adminId` is
`req.user.id`.  The body is stored as it comes. -/
def createTask (s : Store) (adminId : Nat) (body : TaskBody) : Store × Response Task :=
  let task : Task :=
    { _id := s.nextId
      title := body.title
      description := body.description
      category := body.category
      points := body.points
      expectedLabels := body.expectedLabels
      deadline := body.deadline
      isActive := true
      createdBy := some adminId }
  ({ s with tasks := s.tasks ++ [task], nextId := s.nextId + 1 }, .ok task)

/-- Model of `Task.insertMany`: each document gets the next fresh `_id`. -/
def insertMany (s : Store) : List Task → Store
  | [] => s
  | d :: ds =>
    insertMany { s with tasks := s.tasks ++ [{ d with _id := s.nextId }], nextId := s.nextId + 1 }
      ds

/-- The three `demoTasks` of `seedDemoTasks` (their `_id` is given on insertion). -/
def demoTasks : List Task :=
  [{ _id := 0, title := "Plant a Sapling"
     description :=
       "Plant a sapling in your home, hostel, or neighbourhood and water it regularly."
     category := "Plantation", points := some 20, expectedLabels := ["tree", "plant", "garden"]
     deadline := none, isActive := true, createdBy := none },
   { _id := 0, title := "Clean Your Classroom Area"
     description :=
       "Collect litter around your classroom or lab and put it in the dustbin."
     category := "Waste Management", points := some 15
     expectedLabels := ["trash", "litter", "bin"]
     deadline := none, isActive := true, createdBy := none },
   { _id := 0, title := "Cycle or Walk to College"
     description :=
       "Use a bicycle or walk instead of a motorbike for at least one trip to college."
     category := "Energy Saving", points := some 25
     expectedLabels := ["bicycle", "bike", "cycle"]
     deadline := none, isActive := true, createdBy := none }]

/-- The function `seedDemoTasks`: nothing is done when a task is stored. -/
def seedDemoTasks (s : Store) : Store :=
  if s.tasks.length > 0 then s else insertMany s demoTasks

/-! ## Sequences of calls -/

/-- A call of one of the three state-changing handlers, with its request. -/
inductive Action where
  | createTask (adminId : Nat) (body : TaskBody)
  | createSubmission (userId taskId : Nat) (file : Option UploadedFile)
      (annotations : List Annotation) (now : Nat)
  | reviewSubmission (id : Nat) (status : String)

/-- The store after one call. -/
def step (toLowerCase : String → String) (s : Store) : Action → Store
  | .createTask adminId body => (createTask s adminId body).1
  | .createSubmission userId taskId file annotations now =>
    (createSubmission toLowerCase s userId taskId file annotations now).1
  | .reviewSubmission id status => (reviewSubmission s id status).1

/-- The store after a sequence of calls, made one after the other. -/
def run (toLowerCase : String → String) (s : Store) (acts : List Action) : Store :=
  acts.foldl (step toLowerCase) s

/-! ## Path ids -/

/-- A `:taskId` or `:id` segment of the request path: the ObjectId it is cast
to, or a string that is no ObjectId. -/
inductive IdParam where
  | objectId (id : Nat)
  | notObjectId (raw : String)
  deriving DecidableEq, Repr

/-- Handler of `POST /api/submissions/:taskId` for any path `taskId`: on a
string that is no ObjectId `Task.findById` throws before anything is stored. -/
def postSubmission (toLowerCase : String → String) (s : Store) (userId : Nat)
    (taskId : IdParam) (file : Option UploadedFile) (annotations : List Annotation)
    (now : Nat) : Store × Response Submission :=
  match taskId with
  | .notObjectId _ => (s, .error 500 "Error")
  | .objectId tid => createSubmission toLowerCase s userId tid file annotations now

/-- Handler of `PATCH /api/submissions/:id` for any path `id`: on a string
that is no ObjectId `Submission.findById` throws before anything is stored. -/
def patchSubmission (s : Store) (id : IdParam) (status : String) :
    Store × Response Submission :=
  match id with
  | .notObjectId _ => (s, .error 500 "Error")
  | .objectId sid => reviewSubmission s sid status

/-! ## A review between its awaits -/

/-- A review request in flight: `pc` counts the store operations it has
completed, `sub` is the submission it has read and `task` the task populated
into it, `user` is the user it has read, already with the credited points,
and `response` is set once it has answered. -/
structure ReviewRun where
  id : Nat
  status : String
  pc : Nat
  sub : Option Submission
  task : Option Task
  user : Option User
  response : Option (Response Submission)
  deriving DecidableEq, Repr

/-- A review request that has just arrived. -/
def ReviewRun.start (id : Nat) (status : String) : ReviewRun :=
  { id := id, status := status, pc := 0, sub := none, task := none, user := none,
    response := none }

/-- The next store operation of a review request, with the code that runs
after it up to the following `await`: the populated `findById` of the
submission, the `findById` of the user, `user.save()`, `sub.save()`. -/
def reviewStep (s : Store) (r : ReviewRun) : Store × ReviewRun :=
  match r.response with
  | some _ => (s, r)
  | none =>
    match r.pc with
    | 0 =>
      match findSubmission s r.id with
      | none => (s, { r with response := some (.error 404 "Not found") })
      | some sub =>
        if sub.status ≠ .approved ∧ r.status = "approved" then
          match findUser s sub.student with
          | none => (s, { r with response := some (.error 500 "Error") })
          | some _ => (s, { r with pc := 1, sub := some sub, task := findTask s sub.task })
        else (s, { r with pc := 3, sub := some sub, task := findTask s sub.task })
    | 1 =>
      match r.sub with
      | none => (s, { r with response := some (.error 500 "Error") })
      | some sub =>
        match findUser s sub.student, r.task with
        | some user, some task =>
          match task.points with
          | some p =>
            (s, { r with pc := 2, user := some { user with points := jsAdd user.points p } })
          | none => (s, { r with response := some (.error 500 "Error") })
        | _, _ => (s, { r with response := some (.error 500 "Error") })
    | 2 =>
      match r.user with
      | none => (s, { r with response := some (.error 500 "Error") })
      | some user => (saveUser s user, { r with pc := 3 })
    | _ =>
      match r.sub with
      | none => (s, { r with response := some (.error 500 "Error") })
      | some sub =>
        match Status.ofString? r.status with
        | none => (s, { r with response := some (.error 500 "Error") })
        | some st =>
          (saveSubmission s { sub with status := st },
            { r with pc := 4, response := some (.ok { sub with status := st }) })

/-- A request served with no other request in between: its four operations. -/
def reviewAlone (s : Store) (id : Nat) (status : String) : Store × ReviewRun :=
  let r1 := reviewStep s (ReviewRun.start id status)
  let r2 := reviewStep r1.1 r1.2
  let r3 := reviewStep r2.1 r2.2
  reviewStep r3.1 r3.2

/-- Two review requests served together: each entry of the schedule says
which request performs its next store operation (`false` the first, `true`
the second). -/
def interleave (s : Store) (r1 r2 : ReviewRun) : List Bool → Store × ReviewRun × ReviewRun
  | [] => (s, r1, r2)
  | false :: rest =>
    let n := reviewStep s r1
    interleave n.1 n.2 r2 rest
  | true :: rest =>
    let n := reviewStep s r2
    interleave n.1 r1 n.2 rest

/-! ## The matcher as the specification words it -/

/-- The score as the specification words it: lower-case both sides, keep the
detected pairs whose label is among the expected labels, and take the rounded
percentage mean of their confidences, in exact arithmetic on the values of
the doubles, or 0 when no pair is kept. -/
def specAiScore (toLowerCase : String → String) (detected : List Annotation)
    (expectedLabels : List String) : Int :=
  let kept := detected.filter
    (fun p => decide (toLowerCase p.description ∈ expectedLabels.map toLowerCase))
  if kept.isEmpty then 0
  else round (100 * ((kept.map (fun p => p.score.toRat)).sum / (kept.length : ℚ)))

/-- The badge set as the specification words it: each threshold crossed by
the points awards its badge, in ascending order of the thresholds. -/
def specDeriveBadges (points : Int) : List String :=
  (if points ≥ 50 then ["Green Beginner"] else []) ++
    (if points ≥ 200 then ["Eco Warrior"] else [])

/-! ## Example data -/

/-- The first seeded demo task, stored under `_id` 1. -/
def saplingTask : Task :=
  { _id := 1, title := "Plant a Sapling", description := "", category := "Plantation",
    points := some 20, expectedLabels := ["tree", "plant", "garden"], deadline := none,
    isActive := true, createdBy := none }

/-- A freshly registered student: no points, no badges. -/
def demoStudent : User :=
  { _id := 7, name := "asha", email := "asha@x.org", passwordHash := "", role := .student,
    points := 0, badges := [] }

/-- A store with one student, the sapling task and no submission yet. -/
def demoStore : Store :=
  { users := [demoStudent], tasks := [saplingTask], submissions := [], nextId := 100 }

/-- An uploaded photo. -/
def demoFile : UploadedFile :=
  { filename := "f.png", path := "uploads/f.png" }

/-- A labeler output with no label of the sapling task. -/
def carAnnotations : List Annotation :=
  [⟨"car", Dbl.ofDecimal 95 100⟩]

/-- The demo store after the student submitted a photo labelled `car` for the
sapling task: the submission is stored under `_id` 100. -/
def pendingStore : Store :=
  (createSubmission asciiLower demoStore 7 1 (some demoFile) carAnnotations 5).1

/-- A task worth 50 points whose expected labels the stub labeler never returns. -/
def cleanupTask : Task :=
  { _id := 2, title := "Campus Clean-up Drive", description := "", category := "Waste Management",
    points := some 50, expectedLabels := ["trash", "litter", "bin"], deadline := none,
    isActive := true, createdBy := none }

/-- A store with one fresh student and the clean-up task. -/
def cleanupStore : Store :=
  { users := [demoStudent], tasks := [cleanupTask], submissions := [], nextId := 100 }

/-- A labeler output whose only label matches with confidence 0.004. -/
def faintAnnotations : List Annotation :=
  [⟨"tree", Dbl.ofDecimal 4 1000⟩]

/-- Four students with 10, 90, 90 and 5 points and an admin with 900. -/
def boardStore : Store :=
  { users :=
      [⟨1, "anu", "anu@x.org", "", .student, 10, []⟩,
       ⟨2, "bela", "bela@x.org", "", .student, 90, ["Green Beginner"]⟩,
       ⟨3, "root", "root@x.org", "", .admin, 900, []⟩,
       ⟨4, "chen", "chen@x.org", "", .student, 90, ["Green Beginner"]⟩,
       ⟨5, "dev", "dev@x.org", "", .student, 5, []⟩]
    tasks := [], submissions := [], nextId := 6 }

/-- The demo student holding 40 points and no badge. -/
def fortyStudent : User :=
  { demoStudent with points := 40 }

/-- The demo store with the student already holding 40 points. -/
def fortyStore : Store :=
  { demoStore with users := [fortyStudent] }

/-- The database before the server first starts: nothing stored. -/
def emptyStore : Store :=
  { users := [], tasks := [], submissions := [], nextId := 1 }

/-- A request body for a task whose reward is minus five points. -/
def penaltyBody : TaskBody :=
  { title := "Litter Audit", description := "", category := "Waste Management",
    points := some (-5),
    expectedLabels := ["trash"], deadline := none }

/-- A store with one fresh student and no task. -/
def freshStore : Store :=
  { users := [demoStudent], tasks := [], submissions := [], nextId := 100 }

/-- A request body for a task with the given reward that the stub labeler
never matches. -/
def rewardBody (points : Int) : TaskBody :=
  { title := "Litter Audit", description := "", category := "Waste Management",
    points := some points, expectedLabels := ["trash"], deadline := none }

/-- The fresh store after a task worth 2^53 points was created (`_id` 100),
the student submitted for it (101, pending) and the admin approved, and a
task worth 1 point was created (102) and the student submitted for it (103,
pending). -/
def richStore : Store :=
  run asciiLower freshStore
    [.createTask 3 (rewardBody 9007199254740992),
     .createSubmission 7 100 (some demoFile) stubAnnotations 5,
     .reviewSubmission 101 "approved",
     .createTask 3 (rewardBody 1),
     .createSubmission 7 102 (some demoFile) stubAnnotations 5]

/-- A labeler output whose only label matches with confidence 0.015. -/
def lowAnnotations : List Annotation :=
  [⟨"tree", Dbl.ofDecimal 15 1000⟩]

/-- A request body for a task worth 1 point that expects the label `tree`. -/
def treeBody : TaskBody :=
  { title := "Hug a Tree", description := "", category := "Plantation",
    points := some 1, expectedLabels := ["tree"], deadline := none }

/-- The fresh store after a task worth 2^53 points was created (`_id` 100),
the student submitted for it (101, pending) and the admin approved, and a
task worth 1 point that expects `tree` was created (102). -/
def richTreeStore : Store :=
  run asciiLower freshStore
    [.createTask 3 (rewardBody 9007199254740992),
     .createSubmission 7 100 (some demoFile) stubAnnotations 5,
     .reviewSubmission 101 "approved",
     .createTask 3 treeBody]

/-! ## Lemmas on rounding -/

theorem ilog2_step (n k step : Nat) (h : k = 0 ∨ 2 ^ k ≤ n) :
    (if n >>> (k + step) = 0 then k else k + step) = 0 ∨
      2 ^ (if n >>> (k + step) = 0 then k else k + step) ≤ n := by
  have hpos : 0 < 2 ^ (k + step) := by positivity
  rw [Nat.shiftRight_eq_div_pow]
  by_cases hz : n / 2 ^ (k + step) = 0
  · rw [if_pos hz]
    exact h
  · rw [if_neg hz]
    right
    by_contra hlt
    exact hz ((Nat.div_eq_zero_iff hpos).mpr (Nat.lt_of_not_le hlt))

theorem ilog2_fold (n : Nat) (steps : List Nat) : ∀ k : Nat, (k = 0 ∨ 2 ^ k ≤ n) →
    (steps.foldl (fun k step => if n >>> (k + step) = 0 then k else k + step) k = 0 ∨
      2 ^ (steps.foldl (fun k step => if n >>> (k + step) = 0 then k else k + step) k) ≤ n) := by
  induction steps with
  | nil =>
    intro k h
    exact h
  | cons step steps ih =>
    intro k h
    rw [List.foldl_cons]
    exact ih _ (ilog2_step n k step h)

theorem ilog2_pow_le (n : Nat) : ilog2 n = 0 ∨ 2 ^ ilog2 n ≤ n :=
  ilog2_fold n _ 0 (Or.inl rfl)

theorem ilog2_sub_eq_zero (n : Nat) (h : n < 2 ^ 53) : ilog2 n - 52 = 0 := by
  rcases ilog2_pow_le n with h0 | hle
  · rw [h0]
  · have hlt : ilog2 n < 53 :=
      (Nat.pow_lt_pow_iff_right (by decide : 1 < 2)).mp (lt_of_le_of_lt hle h)
    omega

theorem pow_le_of_shift_pos (n : Nat) (h : 0 < ilog2 n - 52) :
    2 ^ (52 + (ilog2 n - 52)) ≤ n := by
  rcases ilog2_pow_le n with h0 | hle
  · rw [h0] at h
    exact absurd h (by decide)
  · have he : 52 + (ilog2 n - 52) = ilog2 n := by omega
    rw [he]
    exact hle

/-- Either candidate of the rounding is `q` or `q + 1` times the unit kept, and
it is `q` when nothing was dropped. -/
theorem roundRatio_cases (a b : Nat) (hb : 0 < b) :
    (roundRatio a b = (a / (b * 2 ^ (ilog2 (a / b) - 52))) * 2 ^ (ilog2 (a / b) - 52)) ∨
    (roundRatio a b = (a / (b * 2 ^ (ilog2 (a / b) - 52)) + 1) * 2 ^ (ilog2 (a / b) - 52) ∧
      0 < a % (b * 2 ^ (ilog2 (a / b) - 52))) := by
  have hd : 0 < b * 2 ^ (ilog2 (a / b) - 52) := by positivity
  unfold roundRatio
  simp only [Nat.shiftLeft_eq]
  split_ifs with h1 h2 h3
  · exact Or.inl rfl
  · exact Or.inr ⟨rfl, by omega⟩
  · exact Or.inl rfl
  · exact Or.inr ⟨rfl, by omega⟩

theorem roundRatio_exact (m : Nat) (h : m < 2 ^ 53) : roundRatio m 1 = m := by
  have hs : ilog2 (m / 1) - 52 = 0 := by
    rw [Nat.div_one]
    exact ilog2_sub_eq_zero m h
  rcases roundRatio_cases m 1 (by decide) with h1 | ⟨_, h2⟩
  · rw [h1, hs]
    simp
  · rw [hs] at h2
    simp [Nat.mod_one] at h2

theorem roundRatio_le (a b C K t : Nat) (hb : 0 < b) (hC : C = K * 2 ^ t) (hK : K < 2 ^ 53)
    (h : a ≤ C * b) : roundRatio a b ≤ C := by
  have hd : 0 < b * 2 ^ (ilog2 (a / b) - 52) := by positivity
  have hv : a / b ≤ C := by
    apply Nat.div_le_of_le_mul
    rw [Nat.mul_comm]
    exact h
  -- the unit kept divides `C`
  have hdiv : ∃ C1, C = C1 * 2 ^ (ilog2 (a / b) - 52) := by
    by_cases hs : 0 < ilog2 (a / b) - 52
    · have hlow := pow_le_of_shift_pos (a / b) hs
      have hlt : 2 ^ (52 + (ilog2 (a / b) - 52)) < 2 ^ (53 + t) := by
        calc 2 ^ (52 + (ilog2 (a / b) - 52)) ≤ a / b := hlow
          _ ≤ C := hv
          _ = K * 2 ^ t := hC
          _ < 2 ^ 53 * 2 ^ t := Nat.mul_lt_mul_of_pos_right hK (by positivity)
          _ = 2 ^ (53 + t) := by rw [Nat.pow_add]
      have hst : ilog2 (a / b) - 52 ≤ t := by
        have := (Nat.pow_lt_pow_iff_right (by decide : 1 < 2)).mp hlt
        omega
      refine ⟨K * 2 ^ (t - (ilog2 (a / b) - 52)), ?_⟩
      rw [hC, Nat.mul_assoc, ← Nat.pow_add, Nat.sub_add_cancel hst]
    · have h0 : ilog2 (a / b) - 52 = 0 := by omega
      exact ⟨C, by rw [h0]; simp⟩
  obtain ⟨C1, hC1⟩ := hdiv
  have hq : a / (b * 2 ^ (ilog2 (a / b) - 52)) ≤ C1 := by
    apply Nat.div_le_of_le_mul
    calc a ≤ C * b := h
      _ = b * 2 ^ (ilog2 (a / b) - 52) * C1 := by rw [hC1]; ring
  rcases roundRatio_cases a b hb with h1 | ⟨h1, hr⟩
  · rw [h1, hC1]
    exact Nat.mul_le_mul_right _ hq
  · rw [h1, hC1]
    apply Nat.mul_le_mul_right
    by_contra hcon
    have hqe : a / (b * 2 ^ (ilog2 (a / b) - 52)) = C1 := by omega
    have hmod := Nat.div_add_mod a (b * 2 ^ (ilog2 (a / b) - 52))
    rw [hqe] at hmod
    have : a ≤ b * 2 ^ (ilog2 (a / b) - 52) * C1 := by
      calc a ≤ C * b := h
        _ = b * 2 ^ (ilog2 (a / b) - 52) * C1 := by rw [hC1]; ring
    omega

theorem roundRatio_ge (a b C : Nat) (hb : 0 < b) (hC : C < 2 ^ 53) (h : C * b ≤ a) :
    C ≤ roundRatio a b := by
  have hd : 0 < b * 2 ^ (ilog2 (a / b) - 52) := by positivity
  have hv : C ≤ a / b := (Nat.le_div_iff_mul_le hb).mpr h
  have hq : C ≤ (a / (b * 2 ^ (ilog2 (a / b) - 52))) * 2 ^ (ilog2 (a / b) - 52) := by
    by_cases hs : 0 < ilog2 (a / b) - 52
    · have hlow := pow_le_of_shift_pos (a / b) hs
      have hq52 : 2 ^ 52 ≤ a / (b * 2 ^ (ilog2 (a / b) - 52)) := by
        rw [← Nat.div_div_eq_div_mul]
        apply (Nat.le_div_iff_mul_le (by positivity)).mpr
        rw [← Nat.pow_add]
        exact hlow
      have h2 : 2 ^ 1 ≤ 2 ^ (ilog2 (a / b) - 52) :=
        Nat.pow_le_pow_right (by decide) hs
      calc C ≤ 2 ^ 53 := hC.le
        _ = 2 ^ 52 * 2 ^ 1 := by norm_num
        _ ≤ (a / (b * 2 ^ (ilog2 (a / b) - 52))) * 2 ^ (ilog2 (a / b) - 52) :=
          Nat.mul_le_mul hq52 h2
    · have h0 : ilog2 (a / b) - 52 = 0 := by omega
      rw [h0]
      simpa using hv
  rcases roundRatio_cases a b hb with h1 | ⟨h1, _⟩
  · rw [h1]
    exact hq
  · rw [h1]
    exact le_trans hq (Nat.mul_le_mul_right _ (Nat.le_succ _))

theorem roundRatio_exact_le (m : Nat) (h : m ≤ 2 ^ 53) : roundRatio m 1 = m := by
  rcases Nat.lt_or_ge m (2 ^ 53) with hlt | hge
  · exact roundRatio_exact m hlt
  · have : m = 2 ^ 53 := Nat.le_antisymm h hge
    subst this
    decide

theorem roundInt_nonneg (num : Int) (den : Nat) (h : 0 ≤ num) : 0 ≤ roundInt num den := by
  unfold roundInt
  rw [if_pos h]
  exact Int.ofNat_nonneg _

theorem roundInt_le (num : Int) (den C K t : Nat) (hd : 0 < den) (hC : C = K * 2 ^ t)
    (hK : K < 2 ^ 53) (h0 : 0 ≤ num) (h : num ≤ (C : Int) * den) :
    roundInt num den ≤ (C : Int) := by
  unfold roundInt
  rw [if_pos h0]
  have hn : num.toNat ≤ C * den := by
    have : ((num.toNat : Nat) : Int) ≤ ((C * den : Nat) : Int) := by
      rw [Int.toNat_of_nonneg h0]
      push_cast
      exact h
    exact_mod_cast this
  exact_mod_cast roundRatio_le num.toNat den C K t hd hC hK hn

theorem roundInt_ge (num : Int) (den C : Nat) (hd : 0 < den) (hC : C < 2 ^ 53)
    (h : (C : Int) * den ≤ num) : (C : Int) ≤ roundInt num den := by
  have h0 : 0 ≤ num := le_trans (by positivity) h
  unfold roundInt
  rw [if_pos h0]
  have hn : C * den ≤ num.toNat := by
    have : ((C * den : Nat) : Int) ≤ ((num.toNat : Nat) : Int) := by
      rw [Int.toNat_of_nonneg h0]
      push_cast
      exact h
    exact_mod_cast this
  exact_mod_cast roundRatio_ge num.toNat den C hd hC hn

theorem jsAdd_exact (a b : Int) (hlo : -(2 : Int) ^ 53 ≤ a + b) (hhi : a + b ≤ (2 : Int) ^ 53) :
    jsAdd a b = a + b := by
  unfold jsAdd roundInt
  by_cases h0 : 0 ≤ a + b
  · rw [if_pos h0]
    have hm : (a + b).toNat ≤ 2 ^ 53 := by
      have : (((a + b).toNat : Nat) : Int) ≤ ((2 ^ 53 : Nat) : Int) := by
        rw [Int.toNat_of_nonneg h0]
        push_cast
        exact hhi
      exact_mod_cast this
    rw [roundRatio_exact_le _ hm, Int.toNat_of_nonneg h0]
  · rw [if_neg h0]
    have h1 : 0 ≤ -(a + b) := by omega
    have hm : (-(a + b)).toNat ≤ 2 ^ 53 := by
      have : (((-(a + b)).toNat : Nat) : Int) ≤ ((2 ^ 53 : Nat) : Int) := by
        rw [Int.toNat_of_nonneg h1]
        push_cast
        omega
      exact_mod_cast this
    rw [roundRatio_exact_le _ hm, Int.toNat_of_nonneg h1]
    omega

theorem jsAdd_ge (a b : Int) (c : Nat) (hc : c < 2 ^ 53) (h : (c : Int) ≤ a + b) :
    (c : Int) ≤ jsAdd a b := by
  unfold jsAdd
  exact roundInt_ge (a + b) 1 c (by decide) hc (by simpa using h)

/-! ## Lemmas on the matcher -/

theorem labelsMatched_iff (toLowerCase : String → String) (labels expectedLabels : List String) :
    labelsMatched toLowerCase labels expectedLabels = true ↔
      ∃ l ∈ labels, ∃ e ∈ expectedLabels, toLowerCase l = toLowerCase e := by
  simp only [labelsMatched, List.any_eq_true, List.contains_iff_exists_mem_beq,
    List.mem_map, beq_iff_eq]
  constructor
  · rintro ⟨l, hl, x, ⟨e, he, rfl⟩, hx⟩
    exact ⟨l, hl, e, he, hx⟩
  · rintro ⟨l, hl, e, he, hx⟩
    exact ⟨l, hl, _, ⟨e, he, rfl⟩, hx⟩

theorem initialStatus_eq_approved (matched : Bool) (aiScore : Int) :
    initialStatus matched aiScore = .approved ↔ matched = true ∧ aiScore ≥ 60 := by
  unfold initialStatus
  split <;> simp_all

theorem initialStatus_cases (matched : Bool) (aiScore : Int) :
    initialStatus matched aiScore = .approved ∨ initialStatus matched aiScore = .pending := by
  unfold initialStatus
  split <;> simp

theorem createSubmission_cases (toLowerCase : String → String) (s : Store)
    (userId taskId : Nat) (f : UploadedFile) (annotations : List Annotation) (now : Nat)
    (task : Task) (hT : findTask s taskId = some task) :
    ((newSubmission toLowerCase s userId taskId task f annotations now).status ≠ .approved ∧
      createSubmission toLowerCase s userId taskId (some f) annotations now =
        (insertSubmission s (newSubmission toLowerCase s userId taskId task f annotations now),
          .ok (newSubmission toLowerCase s userId taskId task f annotations now))) ∨
    ((newSubmission toLowerCase s userId taskId task f annotations now).status = .approved ∧
      (findUser s userId = none ∨ task.points = none) ∧
      createSubmission toLowerCase s userId taskId (some f) annotations now =
        (insertSubmission s (newSubmission toLowerCase s userId taskId task f annotations now),
          .error 500 "Error")) ∨
    ((newSubmission toLowerCase s userId taskId task f annotations now).status = .approved ∧
      ∃ (u : User) (p : Int), findUser s userId = some u ∧ task.points = some p ∧
      createSubmission toLowerCase s userId taskId (some f) annotations now =
        (saveUser
          (insertSubmission s (newSubmission toLowerCase s userId taskId task f annotations now))
          (awardBadges { u with points := jsAdd u.points p }),
          .ok (newSubmission toLowerCase s userId taskId task f annotations now))) := by
  by_cases ha : (newSubmission toLowerCase s userId taskId task f annotations now).status =
      .approved
  · right
    cases hU : findUser s userId with
    | none =>
      left
      have hU1 : findUser (insertSubmission s
          (newSubmission toLowerCase s userId taskId task f annotations now)) userId = none := hU
      refine ⟨ha, Or.inl rfl, ?_⟩
      simp only [createSubmission, hT, ha, if_true, hU1]
    | some u =>
      have hU1 : findUser (insertSubmission s
          (newSubmission toLowerCase s userId taskId task f annotations now)) userId =
          some u := hU
      cases hp : task.points with
      | none =>
        left
        refine ⟨ha, Or.inr rfl, ?_⟩
        simp only [createSubmission, hT, ha, if_true, hU1, hp]
      | some p =>
        right
        refine ⟨ha, u, p, rfl, rfl, ?_⟩
        simp only [createSubmission, hT, ha, if_true, hU1, hp]
  · left
    refine ⟨ha, ?_⟩
    simp only [createSubmission, hT, ha, if_false]

theorem createSubmission_submissions (toLowerCase : String → String) (s : Store)
    (userId taskId : Nat) (f : UploadedFile) (annotations : List Annotation) (now : Nat)
    (task : Task) (hT : findTask s taskId = some task) :
    (createSubmission toLowerCase s userId taskId (some f) annotations now).1.submissions =
      s.submissions ++ [newSubmission toLowerCase s userId taskId task f annotations now] := by
  rcases createSubmission_cases toLowerCase s userId taskId f annotations now task hT with
    ⟨_, h⟩ | ⟨_, _, h⟩ | ⟨_, u, p, _, _, h⟩ <;> rw [h] <;> rfl

theorem createSubmission_ok_body (toLowerCase : String → String) (s : Store)
    (userId taskId : Nat) (f : UploadedFile) (annotations : List Annotation) (now : Nat)
    (task : Task) (hT : findTask s taskId = some task) (body : Submission)
    (hb : (createSubmission toLowerCase s userId taskId (some f) annotations now).2 = .ok body) :
    body = newSubmission toLowerCase s userId taskId task f annotations now := by
  rcases createSubmission_cases toLowerCase s userId taskId f annotations now task hT with
    ⟨_, h⟩ | ⟨_, _, h⟩ | ⟨_, u, p, _, _, h⟩ <;> rw [h] at hb
  · injection hb with hb
    exact hb.symm
  · cases hb
  · injection hb with hb
    exact hb.symm

theorem stub_sapling_aiScore :
    (labelDetectionWithScore asciiLower stubAnnotations ["tree", "plant", "garden"]).aiScore =
      86 := by
  decide

/-- C1: the status a submission is created with is `approved` exactly when some
detected label is, case-insensitively, among the task's expected labels and
`aiScore >= 60`; in every other case it is `pending`, and it is never
`rejected`.  The submission meant is the one the handler persists. -/
theorem createSubmission_initial_status (toLowerCase : String → String) (s : Store)
    (userId taskId : Nat) (f : UploadedFile) (annotations : List Annotation) (now : Nat)
    (task : Task) (hT : findTask s taskId = some task) :
    ∃ sub : Submission,
      (createSubmission toLowerCase s userId taskId (some f) annotations now).1.submissions =
        s.submissions ++ [sub] ∧
      (∀ body, (createSubmission toLowerCase s userId taskId (some f) annotations now).2 =
        .ok body → body = sub) ∧
      sub.aiScore = (labelDetectionWithScore toLowerCase annotations task.expectedLabels).aiScore ∧
      (sub.status = .approved ↔
        (∃ a ∈ annotations, ∃ e ∈ task.expectedLabels,
          toLowerCase a.description = toLowerCase e) ∧ sub.aiScore ≥ 60) ∧
      (sub.status ≠ .approved → sub.status = .pending) ∧
      sub.status ≠ .rejected := by
  refine ⟨newSubmission toLowerCase s userId taskId task f annotations now,
    createSubmission_submissions toLowerCase s userId taskId f annotations now task hT,
    ?_, rfl, ?_, ?_, ?_⟩
  · intro body hb
    exact createSubmission_ok_body toLowerCase s userId taskId f annotations now task hT body hb
  · simp only [newSubmission, initialStatus_eq_approved, labelsMatched_iff,
      labelDetectionWithScore, List.mem_map]
    constructor
    · rintro ⟨⟨l, ⟨a, ha, rfl⟩, e, he, h⟩, h60⟩
      exact ⟨⟨a, ha, e, he, h⟩, h60⟩
    · rintro ⟨⟨a, ha, e, he, h⟩, h60⟩
      exact ⟨⟨_, ⟨a, ha, rfl⟩, e, he, h⟩, h60⟩
  · intro h
    rcases initialStatus_cases
      (labelsMatched toLowerCase
        (labelDetectionWithScore toLowerCase annotations task.expectedLabels).labels
        task.expectedLabels)
      (labelDetectionWithScore toLowerCase annotations task.expectedLabels).aiScore with h1 | h1
    · exact absurd h1 h
    · exact h1
  · rcases initialStatus_cases
      (labelsMatched toLowerCase
        (labelDetectionWithScore toLowerCase annotations task.expectedLabels).labels
        task.expectedLabels)
      (labelDetectionWithScore toLowerCase annotations task.expectedLabels).aiScore with h1 | h1
    · simp [newSubmission, h1]
    · simp [newSubmission, h1]

/-- Witness of C1: the stub annotations submitted for the sapling task. -/
theorem createSubmission_initial_status_witness :
    findTask demoStore 1 = some saplingTask ∧
    ∃ sub : Submission,
      (createSubmission asciiLower demoStore 7 1 (some demoFile) stubAnnotations 5).1.submissions =
        demoStore.submissions ++ [sub] ∧
      (∀ body, (createSubmission asciiLower demoStore 7 1 (some demoFile) stubAnnotations 5).2 =
        .ok body → body = sub) ∧
      sub.aiScore =
        (labelDetectionWithScore asciiLower stubAnnotations saplingTask.expectedLabels).aiScore ∧
      (sub.status = .approved ↔
        (∃ a ∈ stubAnnotations, ∃ e ∈ saplingTask.expectedLabels,
          asciiLower a.description = asciiLower e) ∧ sub.aiScore ≥ 60) ∧
      (sub.status ≠ .approved → sub.status = .pending) ∧
      sub.status ≠ .rejected :=
  ⟨by decide,
    createSubmission_initial_status asciiLower demoStore 7 1 demoFile stubAnnotations 5
      saplingTask (by decide)⟩

/-! ## Lemmas on the collections -/

theorem find?_map_replace {α : Type} (key : α → Nat) (l : List α) (y : α) (id : Nat) :
    (l.map (fun x => if key x == key y then y else x)).find? (fun x => key x == id) =
      if id = key y then (l.find? (fun x => key x == id)).map (fun _ => y)
      else l.find? (fun x => key x == id) := by
  induction l with
  | nil => simp
  | cons a l ih =>
    by_cases hy : key a = key y
    · have e1 : (key a == key y) = true := by simpa using hy
      by_cases hid : id = key y
      · have e2 : (key y == id) = true := by simpa using hid.symm
        have e3 : (key a == id) = true := by simpa [hy] using hid.symm
        simp only [List.map_cons, List.find?_cons, e1, e2, e3, if_true]
        simp [hid]
      · have e2 : (key y == id) = false := by simpa using fun h => hid h.symm
        have e3 : (key a == id) = false := by simpa [hy] using fun h => hid h.symm
        simp only [List.map_cons, List.find?_cons, e1, e2, e3, if_true, ih]
    · have e1 : (key a == key y) = false := by simpa using hy
      by_cases ha : key a = id
      · have e3 : (key a == id) = true := by simpa using ha
        have hid : ¬ id = key y := fun h => hy (ha.trans h)
        simp only [List.map_cons, List.find?_cons, e1, e3, Bool.false_eq_true, if_false]
        simp [hid]
      · have e3 : (key a == id) = false := by simpa using ha
        simp only [List.map_cons, List.find?_cons, e1, e3, Bool.false_eq_true, if_false, ih]

theorem findUser_saveUser_self (s : Store) (u v : User) (h : findUser s v._id = some u) :
    findUser (saveUser s v) v._id = some v := by
  unfold findUser at h
  simp only [findUser, saveUser]
  rw [find?_map_replace (fun x : User => x._id) s.users v v._id, h]
  simp

theorem findUser_saveUser_other (s : Store) (v : User) (id : Nat) (h : id ≠ v._id) :
    findUser (saveUser s v) id = findUser s id := by
  simp only [findUser, saveUser]
  rw [find?_map_replace (fun x : User => x._id) s.users v id]
  simp [h]

theorem findSubmission_saveSubmission_self (s : Store) (a b : Submission)
    (h : findSubmission s b._id = some a) :
    findSubmission (saveSubmission s b) b._id = some b := by
  unfold findSubmission at h
  simp only [findSubmission, saveSubmission]
  rw [find?_map_replace (fun x : Submission => x._id) s.submissions b b._id, h]
  simp

theorem findSubmission_id (s : Store) (id : Nat) (sub : Submission)
    (h : findSubmission s id = some sub) : sub._id = id := by
  have := List.find?_some h
  simpa using this

theorem findUser_id (s : Store) (id : Nat) (u : User) (h : findUser s id = some u) :
    u._id = id := by
  have := List.find?_some h
  simpa using this

/-! ## Lemmas on the review handler -/

theorem ofString?_approved : Status.ofString? "approved" = some Status.approved := by decide

theorem ofString?_rejected : Status.ofString? "rejected" = some Status.rejected := by decide

theorem findUser_saveSubmission (s : Store) (sub : Submission) (id : Nat) :
    findUser (saveSubmission s sub) id = findUser s id := rfl

theorem findSubmission_saveUser (s : Store) (u : User) (id : Nat) :
    findSubmission (saveUser s u) id = findSubmission s id := rfl

theorem reviewSubmission_approved_again (s : Store) (id : Nat) (sub : Submission)
    (hS : findSubmission s id = some sub) (ha : sub.status = .approved) :
    reviewSubmission s id "approved" =
      (saveSubmission s { sub with status := .approved },
        .ok { sub with status := .approved }) := by
  simp [reviewSubmission, hS, ha, ofString?_approved]

theorem reviewSubmission_approved_first (s : Store) (id : Nat) (sub : Submission) (u : User)
    (t : Task) (p : Int) (hS : findSubmission s id = some sub) (hne : sub.status ≠ .approved)
    (hU : findUser s sub.student = some u) (hT : findTask s sub.task = some t)
    (hp : t.points = some p) :
    reviewSubmission s id "approved" =
      (saveSubmission (saveUser s { u with points := jsAdd u.points p })
          { sub with status := .approved },
        .ok { sub with status := .approved }) := by
  simp [reviewSubmission, hS, hne, hU, hT, hp, ofString?_approved]

/-- C2 (evaluation at the failing input): a submission created `pending` for
the 20-point sapling task and then reviewed `approved`, `rejected`, `approved`
ends `approved` with the student holding 40 points, two credits of
`task.points`; after the first approval the student held 20. -/
theorem review_approve_reject_approve_credits_twice :
    (findSubmission pendingStore 100).map (fun x => (x.student, x.task, x.status)) =
      some (7, 1, Status.pending) ∧
    (findUser pendingStore 7).map (fun u => u.points) = some 0 ∧
    (findTask pendingStore 1).map (fun t => t.points) = some (some 20) ∧
    (findUser (reviewSubmission pendingStore 100 "approved").1 7).map (fun u => u.points) =
      some 20 ∧
    (findUser (reviewSubmission (reviewSubmission (reviewSubmission pendingStore 100
      "approved").1 100 "rejected").1 100 "approved").1 7).map (fun u => u.points) = some 40 ∧
    (findSubmission (reviewSubmission (reviewSubmission (reviewSubmission pendingStore 100
      "approved").1 100 "rejected").1 100 "approved").1 100).map (fun x => x.status) =
      some Status.approved := by
  decide

/-- C3 (counterexample): the student holds 2^53 points, earned by one approval
of a task worth that much, and has a pending submission for a task worth 1
point.  The review with `approved` succeeds and the submission is approved,
but the sum 2^53 + 1 is no double and is rounded to 2^53: the student's points
rise by 0, not by `task.points`. -/
theorem review_credit_is_rounded :
    (findUser richStore 7).map (fun u => u.points) = some 9007199254740992 ∧
    (findSubmission richStore 103).map (fun x => (x.student, x.task, x.status)) =
      some (7, 102, Status.pending) ∧
    (findTask richStore 102).map (fun t => t.points) = some (some 1) ∧
    (reviewSubmission richStore 103 "approved").2 =
      .ok ⟨103, 7, 102, "/uploads/f.png", .approved, ["tree", "plant", "environment"], 0, 5⟩ ∧
    (findUser (reviewSubmission richStore 103 "approved").1 7).map (fun u => u.points) =
      some 9007199254740992 := by
  decide

/-- C3 (amended): on a stored submission that is already `approved`, a review
with `approved` leaves the user collection as it was; on one that is not, its
student being stored and its task stored with a points value, the first of
two consecutive reviews with `approved` credits the double sum of the
student's points and `task.points` and touches no other account, and the
second leaves the user collection as the first left it; the double sum is the
exact sum whenever that sum is an integer of magnitude at most 2^53, so the
two calls then raise the student's points by exactly `task.points`. -/
theorem reviewSubmission_approve_twice (s : Store) (id : Nat) (sub : Submission)
    (hS : findSubmission s id = some sub) :
    (sub.status = .approved → (reviewSubmission s id "approved").1.users = s.users) ∧
    (sub.status ≠ .approved → ∀ (u : User) (t : Task) (p : Int),
      findUser s sub.student = some u → findTask s sub.task = some t → t.points = some p →
      (findUser (reviewSubmission s id "approved").1 sub.student).map (fun x => x.points) =
        some (jsAdd u.points p) ∧
      (∀ uid, uid ≠ sub.student →
        findUser (reviewSubmission s id "approved").1 uid = findUser s uid) ∧
      (reviewSubmission (reviewSubmission s id "approved").1 id "approved").1.users =
        (reviewSubmission s id "approved").1.users ∧
      (-(2 : Int) ^ 53 ≤ u.points + p → u.points + p ≤ (2 : Int) ^ 53 →
        (findUser (reviewSubmission (reviewSubmission s id "approved").1 id "approved").1
          sub.student).map (fun x => x.points) = some (u.points + p))) := by
  constructor
  · intro ha
    rw [reviewSubmission_approved_again s id sub hS ha]
    rfl
  · intro hne u t p hU hT hp
    have hid : sub._id = id := findSubmission_id s id sub hS
    have huid : u._id = sub.student := findUser_id s sub.student u hU
    have h1 := reviewSubmission_approved_first s id sub u t p hS hne hU hT hp
    have hu1 : findUser (saveUser s { u with points := jsAdd u.points p }) sub.student =
        some { u with points := jsAdd u.points p } := by
      have := findUser_saveUser_self s u { u with points := jsAdd u.points p }
        (by simpa [huid] using hU)
      simpa [huid] using this
    have hs1 : findSubmission (saveSubmission
        (saveUser s { u with points := jsAdd u.points p })
        { sub with status := .approved }) id = some { sub with status := .approved } := by
      have := findSubmission_saveSubmission_self
        (saveUser s { u with points := jsAdd u.points p }) sub
        { sub with status := .approved }
        (by simpa [findSubmission_saveUser, hid] using hS)
      simpa [hid] using this
    have h2 := reviewSubmission_approved_again _ id _ hs1 rfl
    rw [h1]
    dsimp only
    rw [h2]
    refine ⟨?_, ?_, rfl, ?_⟩
    · simp [findUser_saveSubmission, hu1]
    · intro uid hne2
      rw [findUser_saveSubmission]
      exact findUser_saveUser_other s _ uid (by simpa [huid] using hne2)
    · intro hlo hhi
      rw [← jsAdd_exact u.points p hlo hhi]
      simp [findUser_saveSubmission, hu1]

/-- Witness of C3 (amended): the pending submission of the demo student. -/
theorem reviewSubmission_approve_twice_witness :
    findSubmission pendingStore 100 =
      some ⟨100, 7, 1, "/uploads/f.png", .pending, ["car"], 0, 5⟩ ∧
    (findUser (reviewSubmission pendingStore 100 "approved").1 7).map (fun x => x.points) =
      some (jsAdd 0 20) ∧
    (reviewSubmission (reviewSubmission pendingStore 100 "approved").1 100 "approved").1.users =
      (reviewSubmission pendingStore 100 "approved").1.users ∧
    (findUser (reviewSubmission (reviewSubmission pendingStore 100 "approved").1 100
      "approved").1 7).map (fun x => x.points) = some (0 + 20) :=
  have h := (reviewSubmission_approve_twice pendingStore 100
    ⟨100, 7, 1, "/uploads/f.png", .pending, ["car"], 0, 5⟩ (by decide)).2 (by decide)
    demoStudent saplingTask 20 (by decide) (by decide) (by decide)
  ⟨by decide, h.1, h.2.2.1, h.2.2.2 (by decide) (by decide)⟩

/-- C4 (evaluation at the failing input): a fresh student submits a photo for a
50-point task, the stub labeler matches nothing, the submission is `pending`;
the admin then approves it.  The student holds 50 points and no badge, so
"Green Beginner" is missing.  Had the same 50 points been credited by the
creation handler, the badge would have been pushed. -/
theorem review_approval_awards_no_badge :
    (findUser cleanupStore 7).map (fun u => (u.points, u.badges)) = some (0, []) ∧
    (findSubmission (createSubmission asciiLower cleanupStore 7 2 (some demoFile)
      stubAnnotations 5).1 100).map (fun x => x.status) = some Status.pending ∧
    (findUser (reviewSubmission (createSubmission asciiLower cleanupStore 7 2 (some demoFile)
      stubAnnotations 5).1 100 "approved").1 7).map (fun u => (u.points, u.badges)) =
      some (50, []) ∧
    (awardBadges { demoStudent with points := 50 }).badges = ["Green Beginner"] := by
  decide

/-! ## Lemmas on the score -/

theorem unit_eq : Dbl.unit = 2 ^ 1074 := by
  unfold Dbl.unit
  rw [Nat.shiftLeft_eq, Nat.one_mul]

theorem unit_pos : (0 : Int) < (Dbl.unit : Int) := by
  rw [unit_eq]
  positivity

theorem toRat_nonneg_iff (d : Dbl) : 0 ≤ d.toRat ↔ 0 ≤ d.units := by
  unfold Dbl.toRat
  rw [div_nonneg_iff]
  constructor
  · rintro (⟨h, _⟩ | ⟨_, h⟩)
    · exact_mod_cast h
    · exact absurd h (not_le.mpr (by positivity))
  · intro h
    exact Or.inl ⟨by exact_mod_cast h, by positivity⟩

theorem toRat_le_one_iff (d : Dbl) : d.toRat ≤ 1 ↔ d.units ≤ (Dbl.unit : Int) := by
  unfold Dbl.toRat
  rw [div_le_one (by positivity), unit_eq]
  constructor
  · intro h
    exact_mod_cast h
  · intro h
    exact_mod_cast h

theorem foldl_add_bounds (l : List Dbl) : ∀ (acc : Dbl) (k : Nat),
    0 ≤ acc.units → acc.units ≤ (k : Int) * (Dbl.unit : Int) →
    (∀ x ∈ l, 0 ≤ x.units ∧ x.units ≤ (Dbl.unit : Int)) → k + l.length < 2 ^ 53 →
    0 ≤ (l.foldl (fun s x => Dbl.add s x) acc).units ∧
      (l.foldl (fun s x => Dbl.add s x) acc).units ≤
        ((k + l.length : Nat) : Int) * (Dbl.unit : Int) := by
  induction l with
  | nil =>
    intro acc k h0 h1 _ _
    exact ⟨h0, by simpa using h1⟩
  | cons x l ih =>
    intro acc k h0 h1 hx hlen
    have hx0 := hx x (List.mem_cons_self x l)
    rw [List.length_cons] at hlen
    have hsum0 : 0 ≤ acc.units + x.units := by omega
    have hk : k + 1 < 2 ^ 53 := by omega
    have hle : (Dbl.add acc x).units ≤ ((k + 1 : Nat) : Int) * (Dbl.unit : Int) := by
      have := roundInt_le (acc.units + x.units) 1 ((k + 1) * Dbl.unit) (k + 1) 1074
        (by decide) (by rw [unit_eq]) hk hsum0 (by push_cast; nlinarith [hx0.2])
      simpa [Dbl.add] using this
    have h := ih (Dbl.add acc x) (k + 1)
      (roundInt_nonneg _ _ hsum0) hle
      (fun y hy => hx y (List.mem_cons_of_mem x hy)) (by omega)
    rw [List.foldl_cons, List.length_cons]
    refine ⟨h.1, ?_⟩
    have he : k + 1 + l.length = k + (l.length + 1) := by omega
    rw [← he]
    exact h.2

theorem percentMean_bounds (l : List Dbl) (hne : l ≠ [])
    (hx : ∀ x ∈ l, 0 ≤ x.units ∧ x.units ≤ (Dbl.unit : Int)) (hlen : l.length < 2 ^ 53) :
    0 ≤ (percentMean l).units ∧ (percentMean l).units ≤ 100 * (Dbl.unit : Int) := by
  have hpos : 0 < l.length := List.length_pos.mpr hne
  have hU := unit_pos
  have hs := foldl_add_bounds l ⟨0⟩ 0 (le_refl _) (by simp) hx (by simpa using hlen)
  rw [Nat.zero_add] at hs
  have havg0 : 0 ≤ (Dbl.divNat (l.foldl (fun s x => Dbl.add s x) ⟨0⟩) l.length).units :=
    roundInt_nonneg _ _ hs.1
  have havg1 : (Dbl.divNat (l.foldl (fun s x => Dbl.add s x) ⟨0⟩) l.length).units ≤
      (Dbl.unit : Int) := by
    have := roundInt_le (l.foldl (fun s x => Dbl.add s x) ⟨0⟩).units l.length Dbl.unit 1 1074
      hpos (by rw [unit_eq, Nat.one_mul]) (by norm_num) hs.1
      (by rw [mul_comm]; exact hs.2)
    simpa [Dbl.divNat] using this
  have hprod0 : 0 ≤ (Dbl.divNat (l.foldl (fun s x => Dbl.add s x) ⟨0⟩) l.length).units *
      ((100 : Nat) : Int) := by positivity
  constructor
  · exact roundInt_nonneg _ _ hprod0
  · have := roundInt_le ((Dbl.divNat (l.foldl (fun s x => Dbl.add s x) ⟨0⟩) l.length).units *
        ((100 : Nat) : Int)) 1 (100 * Dbl.unit) 100 1074 (by decide) (by rw [unit_eq])
        (by norm_num) hprod0 (by push_cast; nlinarith)
    simpa [percentMean, Dbl.mulNat] using this

theorem Math_round_bounds (x : Dbl) (h0 : 0 ≤ x.units)
    (h1 : x.units ≤ 100 * (Dbl.unit : Int)) : 0 ≤ Math_round x ∧ Math_round x ≤ 100 := by
  have hU := unit_pos
  unfold Math_round
  constructor
  · exact Int.ediv_nonneg (by omega) (by omega)
  · have : (2 * x.units + (Dbl.unit : Int)) / (2 * (Dbl.unit : Int)) < 101 :=
      Int.ediv_lt_of_lt_mul (by omega) (by omega)
    omega

theorem Math_round_eq_zero_iff (x : Dbl) (h0 : 0 ≤ x.units) :
    Math_round x = 0 ↔ x.toRat < 1 / 2 := by
  have hU := unit_pos
  have hq : x.toRat < 1 / 2 ↔ 2 * x.units < (Dbl.unit : Int) := by
    unfold Dbl.toRat
    rw [div_lt_iff₀ (by positivity), unit_eq]
    constructor
    · intro h
      have h2 : (2 : ℚ) * (x.units : ℚ) < (2 : ℚ) ^ 1074 := by linarith
      exact_mod_cast h2
    · intro h
      have h2 : (2 : ℚ) * (x.units : ℚ) < (2 : ℚ) ^ 1074 := by exact_mod_cast h
      linarith
  rw [hq]
  unfold Math_round
  constructor
  · intro h
    by_contra hcon
    have hge : 1 * (2 * (Dbl.unit : Int)) ≤ 2 * x.units + (Dbl.unit : Int) := by omega
    have := Int.le_ediv_of_mul_le (by omega : (0 : Int) < 2 * (Dbl.unit : Int)) hge
    omega
  · intro h
    exact Int.ediv_eq_zero_of_lt (by omega) (by omega)

theorem mem_matchedScores (toLowerCase : String → String) (annotations : List Annotation)
    (expectedLabels : List String) (x : Dbl)
    (hx : x ∈ matchedScores toLowerCase annotations expectedLabels) :
    ∃ a ∈ annotations, a.score = x := by
  simp only [matchedScores, List.mem_map, List.mem_filter] at hx
  obtain ⟨a, ⟨ha, _⟩, rfl⟩ := hx
  exact ⟨a, ha, rfl⟩

theorem matchedScores_length_le (toLowerCase : String → String)
    (annotations : List Annotation) (expectedLabels : List String) :
    (matchedScores toLowerCase annotations expectedLabels).length ≤ annotations.length := by
  simp only [matchedScores, List.length_map]
  exact List.length_filter_le _ _

theorem matchedScores_eq_nil_iff (toLowerCase : String → String) (annotations : List Annotation)
    (expectedLabels : List String) :
    matchedScores toLowerCase annotations expectedLabels = [] ↔
      ¬ ∃ a ∈ annotations, ∃ e ∈ expectedLabels, toLowerCase a.description = toLowerCase e := by
  simp only [matchedScores, List.map_eq_nil_iff, List.filter_eq_nil_iff,
    List.contains_iff_exists_mem_beq, List.mem_map, beq_iff_eq]
  constructor
  · rintro h ⟨a, ha, e, he, hae⟩
    exact h a ha ⟨_, ⟨e, he, rfl⟩, hae⟩
  · rintro h a ha ⟨x, ⟨e, he, rfl⟩, hae⟩
    exact h ⟨a, ha, e, he, hae⟩

theorem aiScore_of_nil (toLowerCase : String → String) (annotations : List Annotation)
    (expectedLabels : List String)
    (h : matchedScores toLowerCase annotations expectedLabels = []) :
    (labelDetectionWithScore toLowerCase annotations expectedLabels).aiScore = 0 := by
  simp [labelDetectionWithScore, h]

theorem aiScore_of_ne_nil (toLowerCase : String → String) (annotations : List Annotation)
    (expectedLabels : List String)
    (h : matchedScores toLowerCase annotations expectedLabels ≠ []) :
    (labelDetectionWithScore toLowerCase annotations expectedLabels).aiScore =
      Math_round (percentMean (matchedScores toLowerCase annotations expectedLabels)) := by
  have hpos : 0 < (matchedScores toLowerCase annotations expectedLabels).length :=
    List.length_pos.mpr h
  simp only [labelDetectionWithScore, gt_iff_lt, hpos, if_true]

theorem matched_unit_bounds (toLowerCase : String → String) (annotations : List Annotation)
    (expectedLabels : List String)
    (h : ∀ a ∈ annotations, 0 ≤ a.score.toRat ∧ a.score.toRat ≤ 1) :
    ∀ x ∈ matchedScores toLowerCase annotations expectedLabels,
      0 ≤ x.units ∧ x.units ≤ (Dbl.unit : Int) := by
  intro x hx
  obtain ⟨a, ha, rfl⟩ := mem_matchedScores toLowerCase annotations expectedLabels x hx
  exact ⟨(toRat_nonneg_iff _).mp (h a ha).1, (toRat_le_one_iff _).mp (h a ha).2⟩

theorem foldl_add_nonneg (l : List Dbl) : ∀ (acc : Dbl), 0 ≤ acc.units →
    (∀ x ∈ l, 0 ≤ x.units) → 0 ≤ (l.foldl (fun s x => Dbl.add s x) acc).units := by
  induction l with
  | nil =>
    intro acc h0 _
    exact h0
  | cons x l ih =>
    intro acc h0 hx
    have hx0 := hx x (List.mem_cons_self x l)
    rw [List.foldl_cons]
    exact ih (Dbl.add acc x) (roundInt_nonneg _ _ (by omega))
      (fun y hy => hx y (List.mem_cons_of_mem x hy))

theorem percentMean_nonneg (l : List Dbl) (hx : ∀ x ∈ l, 0 ≤ x.units) :
    0 ≤ (percentMean l).units := by
  have hs := foldl_add_nonneg l ⟨0⟩ (le_refl _) hx
  have havg : 0 ≤ (Dbl.divNat (l.foldl (fun s x => Dbl.add s x) ⟨0⟩) l.length).units :=
    roundInt_nonneg _ _ hs
  exact roundInt_nonneg _ _ (by positivity)

theorem round_percent_aux (S : Int) (n U : Nat) (hn0 : (n : ℚ) ≠ 0) (hU0 : (U : ℚ) ≠ 0) :
    ⌊100 * (((S : ℚ) / (U : ℚ)) / (n : ℚ)) + 1 / 2⌋ =
      (200 * S + (n : Int) * (U : Int)) / (((2 * n * U : Nat) : Int)) := by
  rw [← Rat.floor_intCast_div_natCast]
  congr 1
  push_cast
  field_simp
  ring

theorem round_percent (S : Int) (n : Nat) (hn : 0 < n) :
    round (100 * (((S : ℚ) / (2 : ℚ) ^ 1074) / (n : ℚ))) =
      (200 * S + (n : Int) * (Dbl.unit : Int)) / (((2 * n * Dbl.unit : Nat) : Int)) := by
  have hn0 : (n : ℚ) ≠ 0 := by exact_mod_cast hn.ne'
  have hU : ((Dbl.unit : Nat) : ℚ) = (2 : ℚ) ^ 1074 := by
    rw [unit_eq]
    push_cast
    rfl
  have hU0 : ((Dbl.unit : Nat) : ℚ) ≠ 0 := by
    rw [hU]
    positivity
  rw [round_eq, ← hU]
  exact round_percent_aux S n Dbl.unit hn0 hU0

theorem unit_interval_of_units (l : List Annotation)
    (h : ∀ a ∈ l, 0 ≤ a.score.units ∧ a.score.units ≤ (Dbl.unit : Int)) :
    ∀ a ∈ l, 0 ≤ a.score.toRat ∧ a.score.toRat ≤ 1 :=
  fun a ha => ⟨(toRat_nonneg_iff _).mpr (h a ha).1, (toRat_le_one_iff _).mpr (h a ha).2⟩

/-- C5 (counterexample): the label `tree` is expected and detected with
confidence 0.004, which lies in [0,1], and the score is `Math.round 0.4 = 0`;
so a score of 0 does not mean that no label matched. -/
theorem aiScore_zero_despite_match :
    (∀ a ∈ faintAnnotations, 0 ≤ a.score.toRat ∧ a.score.toRat ≤ 1) ∧
    ¬ ((labelDetectionWithScore asciiLower faintAnnotations ["tree"]).aiScore = 0 ↔
      ¬ ∃ a ∈ faintAnnotations, ∃ e ∈ ["tree"],
        asciiLower a.description = asciiLower e) := by
  refine ⟨unit_interval_of_units faintAnnotations (by decide), ?_⟩
  intro h
  exact h.mp (by decide) (by decide)

/-- C5 (amended): for confidences in [0,1] the score is 0 exactly when no
detected label is, case-insensitively, among the expected labels or the
percentage mean of the matching confidences, as the matcher computes it in
doubles, is below 0.5. -/
theorem aiScore_eq_zero_iff (toLowerCase : String → String) (annotations : List Annotation)
    (expectedLabels : List String) (h : ∀ a ∈ annotations, 0 ≤ a.score.toRat ∧ a.score.toRat ≤ 1) :
    (labelDetectionWithScore toLowerCase annotations expectedLabels).aiScore = 0 ↔
      (¬ ∃ a ∈ annotations, ∃ e ∈ expectedLabels,
        toLowerCase a.description = toLowerCase e) ∨
      (percentMean (matchedScores toLowerCase annotations expectedLabels)).toRat < 1 / 2 := by
  by_cases hnil : matchedScores toLowerCase annotations expectedLabels = []
  · have hno := (matchedScores_eq_nil_iff toLowerCase annotations expectedLabels).mp hnil
    simp [aiScore_of_nil toLowerCase annotations expectedLabels hnil, hno]
  · have hyes : ¬ ¬ ∃ a ∈ annotations, ∃ e ∈ expectedLabels,
        toLowerCase a.description = toLowerCase e :=
      fun hno => hnil ((matchedScores_eq_nil_iff toLowerCase annotations expectedLabels).mpr hno)
    have h0 := percentMean_nonneg (matchedScores toLowerCase annotations expectedLabels)
      (fun x hx => (matched_unit_bounds toLowerCase annotations expectedLabels h x hx).1)
    rw [aiScore_of_ne_nil toLowerCase annotations expectedLabels hnil,
      Math_round_eq_zero_iff _ h0]
    simp only [hyes, false_or]

/-- Witness of C5 (amended): the faint `tree` annotation. -/
theorem aiScore_eq_zero_iff_witness :
    (∀ a ∈ faintAnnotations, 0 ≤ a.score.toRat ∧ a.score.toRat ≤ 1) ∧
    ((labelDetectionWithScore asciiLower faintAnnotations ["tree"]).aiScore = 0 ↔
      (¬ ∃ a ∈ faintAnnotations, ∃ e ∈ ["tree"],
        asciiLower a.description = asciiLower e) ∨
      (percentMean (matchedScores asciiLower faintAnnotations ["tree"])).toRat < 1 / 2) :=
  have hb := unit_interval_of_units faintAnnotations (by decide)
  ⟨hb, aiScore_eq_zero_iff asciiLower faintAnnotations ["tree"] hb⟩

/-- C6 (counterexample): the label `tree` is expected and detected with
confidence 0.015, a double just below 0.015.  The matcher's product
`0.015 * 100` is rounded up to the double 1.5 and the score is 2, while 100
times the confidence is below 1.5 and rounds to 1. -/
theorem aiScore_differs_from_exact_mean :
    (∀ a ∈ lowAnnotations, 0 ≤ a.score.toRat ∧ a.score.toRat ≤ 1) ∧
    (∃ a ∈ lowAnnotations, ∃ e ∈ ["tree"], asciiLower a.description = asciiLower e) ∧
    (labelDetectionWithScore asciiLower lowAnnotations ["tree"]).aiScore = 2 ∧
    round (100 * (((matchedScores asciiLower lowAnnotations ["tree"]).map
      (fun x => x.toRat)).sum /
        (((matchedScores asciiLower lowAnnotations ["tree"]).length : Nat) : ℚ))) = 1 ∧
    specAiScore asciiLower lowAnnotations ["tree"] = 1 := by
  have hm : matchedScores asciiLower lowAnnotations ["tree"] = [Dbl.ofDecimal 15 1000] := by
    decide
  have hk : lowAnnotations.filter
      (fun p => decide (asciiLower p.description ∈ ["tree"].map asciiLower)) =
      [⟨"tree", Dbl.ofDecimal 15 1000⟩] := by decide
  have hr : round (100 * (((Dbl.ofDecimal 15 1000).units : ℚ) / (2 : ℚ) ^ 1074 /
      ((1 : Nat) : ℚ))) = 1 := by
    rw [round_percent _ 1 (by decide)]
    decide
  refine ⟨unit_interval_of_units lowAnnotations (by decide), by decide, by decide, ?_, ?_⟩
  · rw [hm]
    simpa [Dbl.toRat] using hr
  · unfold specAiScore
    rw [hk]
    simpa [Dbl.toRat] using hr

/-- C6 (amended): for fewer than 2^53 detected pairs with confidences in
[0,1] the score is an integer in [0,100]; it is `Math.round` of the percentage
mean of the matching confidences as the matcher computes it in doubles (sum
from the left, division by their number, multiplication by 100, each rounded
to the nearest double) when some pair matches, and 0 when none does; for the
sapling task and the stub annotations it is 86. -/
theorem aiScore_range_and_rounding (toLowerCase : String → String)
    (annotations : List Annotation) (expectedLabels : List String)
    (h : ∀ a ∈ annotations, 0 ≤ a.score.toRat ∧ a.score.toRat ≤ 1)
    (hlen : annotations.length < 2 ^ 53) :
    0 ≤ (labelDetectionWithScore toLowerCase annotations expectedLabels).aiScore ∧
    (labelDetectionWithScore toLowerCase annotations expectedLabels).aiScore ≤ 100 ∧
    ((∃ a ∈ annotations, ∃ e ∈ expectedLabels, toLowerCase a.description = toLowerCase e) →
      (labelDetectionWithScore toLowerCase annotations expectedLabels).aiScore =
        Math_round (percentMean (matchedScores toLowerCase annotations expectedLabels))) ∧
    ((¬ ∃ a ∈ annotations, ∃ e ∈ expectedLabels, toLowerCase a.description = toLowerCase e) →
      (labelDetectionWithScore toLowerCase annotations expectedLabels).aiScore = 0) ∧
    (labelDetectionWithScore asciiLower
      [⟨"tree", Dbl.ofDecimal 90 100⟩, ⟨"plant", Dbl.ofDecimal 82 100⟩,
        ⟨"environment", Dbl.ofDecimal 75 100⟩]
      ["tree", "plant", "garden"]).aiScore = 86 := by
  have hex : (labelDetectionWithScore asciiLower
      [⟨"tree", Dbl.ofDecimal 90 100⟩, ⟨"plant", Dbl.ofDecimal 82 100⟩,
        ⟨"environment", Dbl.ofDecimal 75 100⟩]
      ["tree", "plant", "garden"]).aiScore = 86 := by decide
  by_cases hnil : matchedScores toLowerCase annotations expectedLabels = []
  · have hno := (matchedScores_eq_nil_iff toLowerCase annotations expectedLabels).mp hnil
    have h0 := aiScore_of_nil toLowerCase annotations expectedLabels hnil
    exact ⟨by omega, by omega, fun hy => absurd hy hno, fun _ => h0, hex⟩
  · have hyes : ¬ ¬ ∃ a ∈ annotations, ∃ e ∈ expectedLabels,
        toLowerCase a.description = toLowerCase e :=
      fun hno => hnil ((matchedScores_eq_nil_iff toLowerCase annotations expectedLabels).mpr hno)
    have hr := aiScore_of_ne_nil toLowerCase annotations expectedLabels hnil
    have hb := percentMean_bounds (matchedScores toLowerCase annotations expectedLabels) hnil
      (matched_unit_bounds toLowerCase annotations expectedLabels h)
      (lt_of_le_of_lt (matchedScores_length_le toLowerCase annotations expectedLabels) hlen)
    have hm := Math_round_bounds _ hb.1 hb.2
    rw [← hr] at hm
    exact ⟨hm.1, hm.2, fun _ => hr, fun hno => absurd hno hyes, hex⟩

/-- Witness of C6 (amended): the stub annotations and the sapling task. -/
theorem aiScore_range_and_rounding_witness :
    (∀ a ∈ stubAnnotations, 0 ≤ a.score.toRat ∧ a.score.toRat ≤ 1) ∧
    stubAnnotations.length < 2 ^ 53 ∧
    0 ≤ (labelDetectionWithScore asciiLower stubAnnotations ["tree", "plant", "garden"]).aiScore ∧
    (labelDetectionWithScore asciiLower stubAnnotations ["tree", "plant", "garden"]).aiScore ≤
      100 :=
  have hb := unit_interval_of_units stubAnnotations (by decide)
  have h := aiScore_range_and_rounding asciiLower stubAnnotations ["tree", "plant", "garden"] hb
    (by decide)
  ⟨hb, by decide, h.1, h.2.1⟩

/-! ## Lemmas on the creation handler -/

theorem awardBadges_id (v : User) : (awardBadges v)._id = v._id := by
  unfold awardBadges
  dsimp only
  split_ifs <;> rfl

theorem awardBadges_points (v : User) : (awardBadges v).points = v.points := by
  unfold awardBadges
  dsimp only
  split_ifs <;> rfl

theorem createSubmission_approved (toLowerCase : String → String) (s : Store)
    (userId taskId : Nat) (f : UploadedFile) (annotations : List Annotation) (now : Nat)
    (task : Task) (u : User) (p : Int) (hT : findTask s taskId = some task)
    (hU : findUser s userId = some u) (hp : task.points = some p)
    (ha : (newSubmission toLowerCase s userId taskId task f annotations now).status =
      .approved) :
    createSubmission toLowerCase s userId taskId (some f) annotations now =
      (saveUser
        (insertSubmission s (newSubmission toLowerCase s userId taskId task f annotations now))
        (awardBadges { u with points := jsAdd u.points p }),
      .ok (newSubmission toLowerCase s userId taskId task f annotations now)) := by
  have hU1 : findUser (insertSubmission s
      (newSubmission toLowerCase s userId taskId task f annotations now)) userId = some u := hU
  simp only [createSubmission, hT, ha, if_true, hU1, hp]

theorem createSubmission_pending (toLowerCase : String → String) (s : Store)
    (userId taskId : Nat) (f : UploadedFile) (annotations : List Annotation) (now : Nat)
    (task : Task) (hT : findTask s taskId = some task)
    (ha : (newSubmission toLowerCase s userId taskId task f annotations now).status ≠
      .approved) :
    createSubmission toLowerCase s userId taskId (some f) annotations now =
      (insertSubmission s (newSubmission toLowerCase s userId taskId task f annotations now),
      .ok (newSubmission toLowerCase s userId taskId task f annotations now)) := by
  simp only [createSubmission, hT, ha, if_false]

theorem findUser_after_credit (s : Store) (userId : Nat) (u v : User)
    (hU : findUser s userId = some u) (hv : v._id = u._id) :
    findUser (saveUser s v) userId = some v := by
  have huid : u._id = userId := findUser_id s userId u hU
  have := findUser_saveUser_self s u v (by rw [hv, huid]; exact hU)
  rwa [hv, huid] at this

theorem nomatch_pending (toLowerCase : String → String) (s : Store)
    (userId taskId : Nat) (f : UploadedFile) (annotations : List Annotation) (now : Nat)
    (task : Task)
    (hno : ¬ ∃ a ∈ annotations, ∃ e ∈ task.expectedLabels,
      toLowerCase a.description = toLowerCase e) :
    (newSubmission toLowerCase s userId taskId task f annotations now).aiScore = 0 ∧
    (newSubmission toLowerCase s userId taskId task f annotations now).status = .pending := by
  have h0 := aiScore_of_nil toLowerCase annotations task.expectedLabels
    ((matchedScores_eq_nil_iff toLowerCase annotations task.expectedLabels).mpr hno)
  refine ⟨h0, ?_⟩
  simp [newSubmission, h0, initialStatus]

/-- C7 (counterexample): the student holds 2^53 points and submits, with the
stub labeler, for a task worth 1 point that expects `tree`.  The creation
succeeds with status `approved`, but 2^53 + 1 is no double and the credit is
rounded away: the points after the call are the points before, not the
points before plus `task.points`. -/
theorem creation_credit_is_rounded :
    (findUser richTreeStore 7).map (fun u => u.points) = some 9007199254740992 ∧
    (findTask richTreeStore 102).map (fun t => t.points) = some (some 1) ∧
    (createSubmission asciiLower richTreeStore 7 102 (some demoFile) stubAnnotations 5).2 =
      .ok ⟨103, 7, 102, "/uploads/f.png", .approved, ["tree", "plant", "environment"], 90, 5⟩ ∧
    (findUser (createSubmission asciiLower richTreeStore 7 102 (some demoFile)
      stubAnnotations 5).1 7).map (fun u => u.points) = some 9007199254740992 := by
  decide

/-- C7 (amended): for a stored student and a stored task, a creation that
succeeds has status `approved` or `pending`; when `approved` the task has a
points value and the student's points afterwards are the double sum of the
points before and `task.points`, which is the exact sum whenever that sum is
an integer of magnitude at most 2^53; when `pending` the user collection is
untouched; no other account changes; and when no detected label matches, the
creation succeeds with score 0 and status `pending` and the user collection
(points and badges) is untouched. -/
theorem createSubmission_points (toLowerCase : String → String) (s : Store)
    (userId taskId : Nat) (f : UploadedFile) (annotations : List Annotation) (now : Nat)
    (task : Task) (u : User) (hT : findTask s taskId = some task)
    (hU : findUser s userId = some u) :
    (∀ sub : Submission,
      (createSubmission toLowerCase s userId taskId (some f) annotations now).2 = .ok sub →
      (sub.status = .approved ∨ sub.status = .pending) ∧
      (sub.status = .approved → ∃ p : Int, task.points = some p ∧
        (findUser (createSubmission toLowerCase s userId taskId (some f) annotations now).1
          userId).map (fun x => x.points) = some (jsAdd u.points p) ∧
        (-(2 : Int) ^ 53 ≤ u.points + p → u.points + p ≤ (2 : Int) ^ 53 →
          (findUser (createSubmission toLowerCase s userId taskId (some f) annotations now).1
            userId).map (fun x => x.points) = some (u.points + p))) ∧
      (sub.status = .pending →
        (createSubmission toLowerCase s userId taskId (some f) annotations now).1.users =
          s.users)) ∧
    (∀ uid, uid ≠ userId →
      findUser (createSubmission toLowerCase s userId taskId (some f) annotations now).1 uid =
        findUser s uid) ∧
    ((¬ ∃ a ∈ annotations, ∃ e ∈ task.expectedLabels,
        toLowerCase a.description = toLowerCase e) →
      ∃ sub : Submission,
        (createSubmission toLowerCase s userId taskId (some f) annotations now).2 = .ok sub ∧
        sub.aiScore = 0 ∧ sub.status = .pending ∧
        (createSubmission toLowerCase s userId taskId (some f) annotations now).1.users =
          s.users) := by
  have hcases := initialStatus_cases
    (labelsMatched toLowerCase
      (labelDetectionWithScore toLowerCase annotations task.expectedLabels).labels
      task.expectedLabels)
    (labelDetectionWithScore toLowerCase annotations task.expectedLabels).aiScore
  have huid : u._id = userId := findUser_id s userId u hU
  rcases createSubmission_cases toLowerCase s userId taskId f annotations now task hT with
    ⟨ha, h⟩ | ⟨ha, _, h⟩ | ⟨ha, u1, p, hU1, hp, h⟩
  · -- pending
    have hpend : (newSubmission toLowerCase s userId taskId task f annotations now).status =
        .pending := by
      rcases hcases with h1 | h1
      · exact absurd h1 ha
      · exact h1
    rw [h]
    refine ⟨?_, fun _ _ => rfl, fun hno => ⟨_, rfl,
      (nomatch_pending toLowerCase s userId taskId f annotations now task hno).1, hpend, rfl⟩⟩
    intro sub hsub
    injection hsub with hsub
    subst hsub
    exact ⟨Or.inr hpend, fun h1 => absurd h1 ha, fun _ => rfl⟩
  · -- approved, but the credit throws
    rw [h]
    refine ⟨fun sub hsub => absurd hsub (by simp), fun _ _ => rfl, fun hno => ?_⟩
    rw [(nomatch_pending toLowerCase s userId taskId f annotations now task hno).2] at ha
    cases ha
  · -- approved and credited
    have hu : u1 = u := by
      rw [hU] at hU1
      exact (Option.some.inj hU1).symm
    subst hu
    have hfind := findUser_after_credit
      (insertSubmission s (newSubmission toLowerCase s userId taskId task f annotations now))
      userId u1 (awardBadges { u1 with points := jsAdd u1.points p }) hU (awardBadges_id _)
    rw [h]
    refine ⟨?_, ?_, fun hno => ?_⟩
    · intro sub hsub
      injection hsub with hsub
      subst hsub
      refine ⟨Or.inl ha, fun _ => ⟨p, hp, ?_, ?_⟩, fun hp2 => ?_⟩
      · dsimp only
        rw [hfind]
        simp [awardBadges_points]
      · intro hlo hhi
        dsimp only
        rw [hfind, ← jsAdd_exact u1.points p hlo hhi]
        simp [awardBadges_points]
      · rw [ha] at hp2
        cases hp2
    · intro uid hne
      dsimp only
      rw [findUser_saveUser_other _ _ uid (by rw [awardBadges_id]; simpa [huid] using hne)]
      rfl
    · rw [(nomatch_pending toLowerCase s userId taskId f annotations now task hno).2] at ha
      cases ha

/-- Witness of C7 (amended): the demo student submits for the sapling task. -/
theorem createSubmission_points_witness :
    findTask demoStore 1 = some saplingTask ∧ findUser demoStore 7 = some demoStudent ∧
    (createSubmission asciiLower demoStore 7 1 (some demoFile) stubAnnotations 5).2 =
      .ok ⟨100, 7, 1, "/uploads/f.png", .approved, ["tree", "plant", "environment"], 86, 5⟩ ∧
    (∃ p : Int, saplingTask.points = some p ∧
      (findUser (createSubmission asciiLower demoStore 7 1 (some demoFile) stubAnnotations 5).1
        7).map (fun x => x.points) = some (jsAdd demoStudent.points p) ∧
      (-(2 : Int) ^ 53 ≤ demoStudent.points + p → demoStudent.points + p ≤ (2 : Int) ^ 53 →
        (findUser (createSubmission asciiLower demoStore 7 1 (some demoFile)
          stubAnnotations 5).1 7).map (fun x => x.points) =
            some (demoStudent.points + p))) :=
  have hr : (createSubmission asciiLower demoStore 7 1 (some demoFile) stubAnnotations 5).2 =
      .ok ⟨100, 7, 1, "/uploads/f.png", .approved, ["tree", "plant", "environment"], 86, 5⟩ := by
    decide
  ⟨by decide, by decide, hr,
    ((createSubmission_points asciiLower demoStore 7 1 demoFile stubAnnotations 5
      saplingTask demoStudent (by decide) (by decide)).1 _ hr).2.1 rfl⟩

/-! ## Badges -/

theorem awardBadges_perm (v : User) (p0 : Int) (h50 : p0 ≥ 50 → v.points ≥ 50)
    (h200 : p0 ≥ 200 → v.points ≥ 200) (hb : v.badges.Perm (specDeriveBadges p0)) :
    (awardBadges v).badges.Perm (specDeriveBadges v.points) := by
  obtain ⟨id, name, email, pw, role, pts, badges⟩ := v
  simp only at h50 h200 hb
  unfold specDeriveBadges at hb
  by_cases c50 : p0 ≥ 50
  · by_cases c200 : p0 ≥ 200
    · have hp1 : pts ≥ 50 := h50 c50
      have hp2 : pts ≥ 200 := h200 c200
      simp only [c50, c200, if_true, List.singleton_append] at hb
      have hg : "Green Beginner" ∈ badges := hb.mem_iff.mpr (by simp)
      have he : "Eco Warrior" ∈ badges := hb.mem_iff.mpr (by simp)
      simp [awardBadges, specDeriveBadges, hp1, hp2, hg, he, hb]
    · have hp1 : pts ≥ 50 := h50 c50
      simp only [c50, c200, if_true, if_false, List.append_nil, List.perm_singleton] at hb
      subst hb
      by_cases hp2 : pts ≥ 200
      · simp [awardBadges, specDeriveBadges, hp1, hp2]
      · simp [awardBadges, specDeriveBadges, hp1, hp2]
  · have c200 : ¬ p0 ≥ 200 := by omega
    simp only [c50, c200, if_false, List.append_nil, List.perm_nil] at hb
    subst hb
    by_cases hp1 : pts ≥ 50
    · by_cases hp2 : pts ≥ 200
      · simp [awardBadges, specDeriveBadges, hp1, hp2]
      · simp [awardBadges, specDeriveBadges, hp1, hp2]
    · have hp2 : ¬ pts ≥ 200 := by omega
      simp [awardBadges, specDeriveBadges, hp1, hp2]

theorem specDeriveBadges_nodup (p : Int) : (specDeriveBadges p).Nodup := by
  unfold specDeriveBadges
  split_ifs <;> decide

/-- C8: when a creation is auto-approved for a task with positive points and
the student's badge list was, up to order, the thresholds crossed by the old
points, the badge list afterwards is, up to order and without duplicates, the
thresholds crossed by the new points: empty below 50, exactly
"Green Beginner" from 50 to 199, exactly "Green Beginner" and "Eco Warrior"
from 200 on.  The new points are the double sum of the old points and the
task's points. -/
theorem createSubmission_badges (toLowerCase : String → String) (s : Store)
    (userId taskId : Nat) (f : UploadedFile) (annotations : List Annotation) (now : Nat)
    (task : Task) (u : User) (sub : Submission) (p : Int)
    (hT : findTask s taskId = some task)
    (hU : findUser s userId = some u) (hp : task.points = some p) (hpos : 0 < p)
    (hb : u.badges.Perm (specDeriveBadges u.points))
    (hr : (createSubmission toLowerCase s userId taskId (some f) annotations now).2 = .ok sub)
    (ha : sub.status = .approved) :
    ∃ v : User,
      findUser (createSubmission toLowerCase s userId taskId (some f) annotations now).1 userId =
        some v ∧
      v.points = jsAdd u.points p ∧
      v.badges.Perm (specDeriveBadges v.points) ∧
      v.badges.Nodup ∧
      (v.points < 50 → v.badges = []) ∧
      (50 ≤ v.points → v.points < 200 → v.badges = ["Green Beginner"]) ∧
      (200 ≤ v.points → ∀ b, b ∈ v.badges ↔ b = "Green Beginner" ∨ b = "Eco Warrior") := by
  have hsub : sub = newSubmission toLowerCase s userId taskId task f annotations now :=
    createSubmission_ok_body toLowerCase s userId taskId f annotations now task hT sub hr
  subst hsub
  rw [createSubmission_approved toLowerCase s userId taskId f annotations now task u p hT hU
    hp ha]
  have hfind := findUser_after_credit
    (insertSubmission s (newSubmission toLowerCase s userId taskId task f annotations now))
    userId u (awardBadges { u with points := jsAdd u.points p }) hU (awardBadges_id _)
  have hpts : (awardBadges { u with points := jsAdd u.points p }).points =
      jsAdd u.points p := awardBadges_points _
  have hperm : (awardBadges { u with points := jsAdd u.points p }).badges.Perm
      (specDeriveBadges (awardBadges { u with points := jsAdd u.points p }).points) := by
    rw [awardBadges_points]
    exact awardBadges_perm { u with points := jsAdd u.points p } u.points
      (fun h => by
        have := jsAdd_ge u.points p 50 (by norm_num) (by push_cast; omega)
        simpa using this)
      (fun h => by
        have := jsAdd_ge u.points p 200 (by norm_num) (by push_cast; omega)
        simpa using this) hb
  refine ⟨awardBadges { u with points := jsAdd u.points p }, hfind, hpts, hperm,
    hperm.nodup_iff.mpr (specDeriveBadges_nodup _), ?_, ?_, ?_⟩
  · intro h
    have h1 : ¬ (awardBadges { u with points := jsAdd u.points p }).points ≥ 50 := by omega
    have h2 : ¬ (awardBadges { u with points := jsAdd u.points p }).points ≥ 200 := by
      omega
    simpa [specDeriveBadges, h1, h2] using hperm
  · intro h1 h
    have h2 : ¬ (awardBadges { u with points := jsAdd u.points p }).points ≥ 200 := by
      omega
    simpa [specDeriveBadges, h1, h2] using hperm
  · intro h2 b
    have h1 : (awardBadges { u with points := jsAdd u.points p }).points ≥ 50 := by omega
    rw [hperm.mem_iff]
    simp [specDeriveBadges, h1, h2]

theorem stub_sapling_status (s : Store) (userId now : Nat) :
    (newSubmission asciiLower s userId 1 saplingTask demoFile stubAnnotations now).status =
      .approved := by
  have h86 : (labelDetectionWithScore asciiLower stubAnnotations
      saplingTask.expectedLabels).aiScore = 86 := stub_sapling_aiScore
  have hm : labelsMatched asciiLower
      (labelDetectionWithScore asciiLower stubAnnotations saplingTask.expectedLabels).labels
      saplingTask.expectedLabels = true := by decide
  simp only [newSubmission, h86, hm, initialStatus]
  decide

/-- Witness of C8: the student with 40 points earns the 20 points of the sapling
task and with them the first badge. -/
theorem createSubmission_badges_witness :
    findTask fortyStore 1 = some saplingTask ∧ findUser fortyStore 7 = some fortyStudent ∧
    saplingTask.points = some 20 ∧ (0 : Int) < 20 ∧
    fortyStudent.badges.Perm (specDeriveBadges fortyStudent.points) ∧
    (createSubmission asciiLower fortyStore 7 1 (some demoFile) stubAnnotations 5).2 =
      .ok (newSubmission asciiLower fortyStore 7 1 saplingTask demoFile stubAnnotations 5) ∧
    (newSubmission asciiLower fortyStore 7 1 saplingTask demoFile stubAnnotations 5).status =
      .approved ∧
    ∃ v : User,
      findUser (createSubmission asciiLower fortyStore 7 1 (some demoFile) stubAnnotations 5).1
        7 = some v ∧
      v.points = jsAdd fortyStudent.points 20 ∧
      v.badges.Perm (specDeriveBadges v.points) ∧
      v.badges.Nodup ∧
      (v.points < 50 → v.badges = []) ∧
      (50 ≤ v.points → v.points < 200 → v.badges = ["Green Beginner"]) ∧
      (200 ≤ v.points → ∀ b, b ∈ v.badges ↔ b = "Green Beginner" ∨ b = "Eco Warrior") :=
  have ha := stub_sapling_status fortyStore 7 5
  have hr : (createSubmission asciiLower fortyStore 7 1 (some demoFile) stubAnnotations 5).2 =
      .ok (newSubmission asciiLower fortyStore 7 1 saplingTask demoFile stubAnnotations 5) := by
    rw [createSubmission_approved asciiLower fortyStore 7 1 demoFile stubAnnotations 5
      saplingTask fortyStudent 20 (by decide) (by decide) (by decide) ha]
  have hb : fortyStudent.badges.Perm (specDeriveBadges fortyStudent.points) := by decide
  ⟨by decide, by decide, by decide, by decide, hb, hr, ha,
    createSubmission_badges asciiLower fortyStore 7 1 demoFile stubAnnotations 5 saplingTask
      fortyStudent _ 20 (by decide) (by decide) (by decide) (by decide) hb hr ha⟩

/-! ## Rejection -/

theorem findSubmission_saveSubmission_other (s : Store) (b : Submission) (id : Nat)
    (h : id ≠ b._id) : findSubmission (saveSubmission s b) id = findSubmission s id := by
  simp only [findSubmission, saveSubmission]
  rw [find?_map_replace (fun x : Submission => x._id) s.submissions b id]
  simp [h]

/-- C9: a review with `rejected` of a stored submission, whatever its status,
succeeds, stores the submission with status `rejected` (nothing else of it and
no other submission changed) and leaves the user collection, so every
account's points and badges, as it was. -/
theorem reviewSubmission_rejected (s : Store) (id : Nat) (sub : Submission)
    (hS : findSubmission s id = some sub) :
    (reviewSubmission s id "rejected").2 = .ok { sub with status := .rejected } ∧
    findSubmission (reviewSubmission s id "rejected").1 id =
      some { sub with status := .rejected } ∧
    (∀ id2, id2 ≠ id →
      findSubmission (reviewSubmission s id "rejected").1 id2 = findSubmission s id2) ∧
    (reviewSubmission s id "rejected").1.users = s.users := by
  have hid : sub._id = id := findSubmission_id s id sub hS
  have hne : ¬ (sub.status ≠ .approved ∧ "rejected" = "approved") := by
    rintro ⟨_, h⟩
    exact absurd h (by decide)
  have hrev : reviewSubmission s id "rejected" =
      (saveSubmission s { sub with status := .rejected },
        .ok { sub with status := .rejected }) := by
    simp only [reviewSubmission, hS, hne, if_false, ofString?_rejected]
  rw [hrev]
  refine ⟨rfl, ?_, ?_, rfl⟩
  · have := findSubmission_saveSubmission_self s sub { sub with status := .rejected }
      (by simpa [hid] using hS)
    simpa [hid] using this
  · intro id2 h2
    exact findSubmission_saveSubmission_other s _ id2 (by simpa [hid] using h2)

/-- Witness of C9: the auto-approved submission of the demo student is
rejected and the 20 credited points stay. -/
theorem reviewSubmission_rejected_witness :
    findSubmission
      (createSubmission asciiLower demoStore 7 1 (some demoFile) stubAnnotations 5).1 100 =
      some (newSubmission asciiLower demoStore 7 1 saplingTask demoFile stubAnnotations 5) ∧
    (newSubmission asciiLower demoStore 7 1 saplingTask demoFile stubAnnotations 5).status =
      .approved ∧
    (reviewSubmission
      (createSubmission asciiLower demoStore 7 1 (some demoFile) stubAnnotations 5).1 100
      "rejected").1.users =
      (createSubmission asciiLower demoStore 7 1 (some demoFile) stubAnnotations 5).1.users :=
  have ha := stub_sapling_status demoStore 7 5
  have hS : findSubmission
      (createSubmission asciiLower demoStore 7 1 (some demoFile) stubAnnotations 5).1 100 =
      some (newSubmission asciiLower demoStore 7 1 saplingTask demoFile stubAnnotations 5) := by
    rw [createSubmission_approved asciiLower demoStore 7 1 demoFile stubAnnotations 5
      saplingTask demoStudent 20 (by decide) (by decide) (by decide) ha]
    simp [findSubmission, saveUser, insertSubmission, demoStore, newSubmission]
  ⟨hS, ha, (reviewSubmission_rejected _ 100 _ hS).2.2.2⟩

/-! ## Leaderboard -/

/-- C10: the leaderboard read returns the store unchanged; its rows are the
projections of exactly the accounts with role `student`, each once, and are
ordered by points non-increasing; students with 10, 90, 90, 5 points (and an
admin with 900) come out as 90, 90, 10, 5. -/
theorem leaderboard_students_by_points (s : Store) :
    (leaderboard s).1 = s ∧
    ∃ rows : List LeaderboardEntry,
      (leaderboard s).2 = .ok rows ∧
      rows.Perm ((s.users.filter (fun u => decide (u.role = Role.student))).map selectEntry) ∧
      rows.Pairwise (fun a b => a.points ≥ b.points) ∧
      (∀ row ∈ rows, ∃ u ∈ s.users, u.role = Role.student ∧ selectEntry u = row) ∧
      ((leaderboard boardStore).2 =
        .ok [⟨2, "bela", 90, ["Green Beginner"]⟩, ⟨4, "chen", 90, ["Green Beginner"]⟩,
          ⟨1, "anu", 10, []⟩, ⟨5, "dev", 5, []⟩]) := by
  refine ⟨rfl, _, rfl, ?_, ?_, ?_, by decide⟩
  · have hf : s.users.filter (fun u => u.role == Role.student) =
        s.users.filter (fun u => decide (u.role = Role.student)) := by
      congr 1
    rw [← hf]
    exact (List.perm_insertionSort _ _).map selectEntry
  · haveI : IsTotal User (fun a b => a.points ≥ b.points) := ⟨fun a b => le_total _ _⟩
    haveI : IsTrans User (fun a b => a.points ≥ b.points) :=
      ⟨fun a b c hab hbc => le_trans hbc hab⟩
    have hs := List.sorted_insertionSort (fun a b : User => a.points ≥ b.points)
      (s.users.filter (fun u => u.role == Role.student))
    exact List.pairwise_map.mpr hs
  · intro row hrow
    have hmem := ((List.perm_insertionSort (fun a b : User => a.points ≥ b.points)
      (s.users.filter (fun u => u.role == Role.student))).map selectEntry).mem_iff.mp hrow
    obtain ⟨u, hu, rfl⟩ := List.mem_map.mp hmem
    obtain ⟨hus, hrole⟩ := List.mem_filter.mp hu
    exact ⟨u, hus, by simpa using hrole, rfl⟩

/-! ## Failing calls -/

theorem createSubmission_missing_user (toLowerCase : String → String) (s : Store)
    (userId taskId : Nat) (f : UploadedFile) (annotations : List Annotation) (now : Nat)
    (task : Task) (hT : findTask s taskId = some task) (hU : findUser s userId = none)
    (ha : (newSubmission toLowerCase s userId taskId task f annotations now).status =
      .approved) :
    createSubmission toLowerCase s userId taskId (some f) annotations now =
      (insertSubmission s (newSubmission toLowerCase s userId taskId task f annotations now),
      .error 500 "Error") := by
  have hU1 : findUser (insertSubmission s
      (newSubmission toLowerCase s userId taskId task f annotations now)) userId = none := hU
  simp only [createSubmission, hT, ha, if_true, hU1]

theorem stub_sapling_submission (s : Store) (userId now : Nat) :
    newSubmission asciiLower s userId 1 saplingTask demoFile stubAnnotations now =
      ⟨s.nextId, userId, 1, "/uploads/f.png", .approved, ["tree", "plant", "environment"], 86,
        now⟩ := by
  have h86 : (labelDetectionWithScore asciiLower stubAnnotations
      saplingTask.expectedLabels).aiScore = 86 := stub_sapling_aiScore
  have hst := stub_sapling_status s userId now
  have hl : (labelDetectionWithScore asciiLower stubAnnotations
      saplingTask.expectedLabels).labels = ["tree", "plant", "environment"] := rfl
  have himg : "/uploads/" ++ demoFile.filename = "/uploads/f.png" := by decide
  simp only [newSubmission, h86, hl, himg] at hst ⊢
  rw [hst]

/-- C11 (evaluation at the failing input): a student token whose account is
not stored, the sapling task and the stub labeler.  The handler answers
`500 Error`, not a not-found error, and the submission it created before
looking the account up stays stored with status `approved`, with no credit
made.  With a labeler output that matches nothing the same call succeeds and
stores a `pending` submission for the missing account. -/
theorem createSubmission_missing_account_persists :
    findUser demoStore 9 = none ∧
    findTask demoStore 1 = some saplingTask ∧
    (createSubmission asciiLower demoStore 9 1 (some demoFile) stubAnnotations 5).2 =
      .error 500 "Error" ∧
    (createSubmission asciiLower demoStore 9 1 (some demoFile) stubAnnotations 5).1.submissions =
      [⟨100, 9, 1, "/uploads/f.png", .approved, ["tree", "plant", "environment"], 86, 5⟩] ∧
    (createSubmission asciiLower demoStore 9 1 (some demoFile) stubAnnotations 5).1.users =
      demoStore.users ∧
    (createSubmission asciiLower demoStore 9 1 (some demoFile) carAnnotations 5).2 =
      .ok ⟨100, 9, 1, "/uploads/f.png", .pending, ["car"], 0, 5⟩ ∧
    (createSubmission asciiLower demoStore 9 1 (some demoFile) carAnnotations 5).1.submissions =
      [⟨100, 9, 1, "/uploads/f.png", .pending, ["car"], 0, 5⟩] := by
  have h := createSubmission_missing_user asciiLower demoStore 9 1 demoFile stubAnnotations 5
    saplingTask (by decide) (by decide) (stub_sapling_status demoStore 9 5)
  rw [h, stub_sapling_submission]
  refine ⟨by decide, by decide, rfl, rfl, rfl, by decide, by decide⟩

/-- C12 (counterexample): the path `taskId` (and the path `id`) `abc` is no
ObjectId, so it matches no stored task (no stored submission); the lookup
throws and the call answers `500 Error`, not the 404 not-found error. -/
theorem malformed_id_answers_500 :
    postSubmission asciiLower demoStore 7 (.notObjectId "abc") (some demoFile) stubAnnotations 5 =
      (demoStore, .error 500 "Error") ∧
    (postSubmission asciiLower demoStore 7 (.notObjectId "abc") (some demoFile) stubAnnotations
      5).2 ≠ .error 404 "Task not found" ∧
    patchSubmission demoStore (.notObjectId "abc") "approved" = (demoStore, .error 500 "Error") ∧
    (patchSubmission demoStore (.notObjectId "abc") "approved").2 ≠ .error 404 "Not found" := by
  decide

/-- C12 (amended): a creation whose `taskId` is an ObjectId that matches no
stored task answers `404 Task not found`, a review whose `id` is an ObjectId
that matches no stored submission answers `404 Not found`, and either call
with an id that is no ObjectId answers `500 Error`; in all four cases the
store is returned as it was, so no submission is created or modified and no
account changes. -/
theorem not_found_leaves_store (toLowerCase : String → String) (s : Store)
    (userId tid : Nat) (file : Option UploadedFile) (annotations : List Annotation)
    (now sid : Nat) (status raw : String) :
    (findTask s tid = none →
      postSubmission toLowerCase s userId (.objectId tid) file annotations now =
        (s, .error 404 "Task not found")) ∧
    postSubmission toLowerCase s userId (.notObjectId raw) file annotations now =
      (s, .error 500 "Error") ∧
    (findSubmission s sid = none →
      patchSubmission s (.objectId sid) status = (s, .error 404 "Not found")) ∧
    patchSubmission s (.notObjectId raw) status = (s, .error 500 "Error") := by
  refine ⟨?_, rfl, ?_, rfl⟩
  · intro h
    simp only [postSubmission, createSubmission, h]
  · intro h
    simp only [patchSubmission, reviewSubmission, h]

/-- Witness of C12 (amended): task 99 and submission 99 are not in the demo
store. -/
theorem not_found_leaves_store_witness :
    findTask demoStore 99 = none ∧ findSubmission demoStore 99 = none ∧
    postSubmission asciiLower demoStore 7 (.objectId 99) (some demoFile) stubAnnotations 5 =
      (demoStore, .error 404 "Task not found") ∧
    patchSubmission demoStore (.objectId 99) "approved" = (demoStore, .error 404 "Not found") :=
  have h := not_found_leaves_store asciiLower demoStore 7 99 (some demoFile) stubAnnotations 5
    99 "approved" "abc"
  ⟨by decide, by decide, h.1 (by decide), h.2.2.1 (by decide)⟩

/-- C13 (evaluation at the failing input): the submission of the demo student
is approved by the admin (20 points credited) and then reviewed with
`pending`.  The call succeeds and the stored status is `pending` again, no
error is raised; a following `approved` credits the 20 points a second time.
A status outside the schema's enum, here `done`, does fail, with `500 Error`,
and leaves the store as it was. -/
theorem review_pending_is_accepted :
    (findSubmission (reviewSubmission pendingStore 100 "approved").1 100).map
      (fun x => x.status) = some Status.approved ∧
    (reviewSubmission (reviewSubmission pendingStore 100 "approved").1 100 "pending").2 =
      .ok ⟨100, 7, 1, "/uploads/f.png", .pending, ["car"], 0, 5⟩ ∧
    (findSubmission (reviewSubmission (reviewSubmission pendingStore 100 "approved").1 100
      "pending").1 100).map (fun x => x.status) = some Status.pending ∧
    (findUser (reviewSubmission (reviewSubmission (reviewSubmission pendingStore 100
      "approved").1 100 "pending").1 100 "approved").1 7).map (fun u => u.points) = some 40 ∧
    reviewSubmission (reviewSubmission pendingStore 100 "approved").1 100 "done" =
      ((reviewSubmission pendingStore 100 "approved").1, .error 500 "Error") := by
  decide

/-! ## Task creation -/

/-- C14 (evaluation at the failing input): the task creation handler stores a
reward of minus five points and answers with the task, no validation error;
once the fresh student's submission for that task is approved the student
holds minus five points, fewer than before and below zero. -/
theorem createTask_admits_negative_points :
    (createTask freshStore 3 penaltyBody).2 =
      .ok ⟨100, "Litter Audit", "", "Waste Management", some (-5), ["trash"], none, true,
        some 3⟩ ∧
    (findUser freshStore 7).map (fun u => u.points) = some 0 ∧
    (findUser (run asciiLower freshStore
      [.createTask 3 penaltyBody,
       .createSubmission 7 100 (some demoFile) stubAnnotations 5,
       .reviewSubmission 101 "approved"]) 7).map (fun u => u.points) = some (-5) := by
  decide

/-! ## Reviews served together -/

/-- Served alone, the four store operations of a review request give the
store and the answer of `reviewSubmission`. -/
theorem reviewAlone_eq (s : Store) (id : Nat) (status : String) :
    (reviewAlone s id status).1 = (reviewSubmission s id status).1 ∧
    (reviewAlone s id status).2.response = some (reviewSubmission s id status).2 := by
  cases hS : findSubmission s id with
  | none => simp [reviewAlone, reviewStep, ReviewRun.start, reviewSubmission, hS]
  | some sub =>
    by_cases hc : sub.status ≠ .approved ∧ status = "approved"
    · obtain ⟨h1, h2⟩ := hc
      subst h2
      cases hU : findUser s sub.student with
      | none => simp [reviewAlone, reviewStep, ReviewRun.start, reviewSubmission, hS, h1, hU]
      | some u =>
        cases hT : findTask s sub.task with
        | none =>
          simp [reviewAlone, reviewStep, ReviewRun.start, reviewSubmission, hS, h1, hU, hT]
        | some t =>
          cases hp : t.points with
          | none =>
            simp [reviewAlone, reviewStep, ReviewRun.start, reviewSubmission, hS, h1, hU, hT,
              hp]
          | some p =>
            simp [reviewAlone, reviewStep, ReviewRun.start, reviewSubmission, hS, h1, hU, hT,
              hp, ofString?_approved]
    · cases hO : Status.ofString? status with
      | none => simp [reviewAlone, reviewStep, ReviewRun.start, reviewSubmission, hS, hc, hO]
      | some st =>
        simp [reviewAlone, reviewStep, ReviewRun.start, reviewSubmission, hS, hc, hO]

/-- C15 (evaluation at the failing input): two requests approve the pending
submission of the demo student (task worth 20 points).  Both read the
submission, still `pending`, before either writes; the first then reads the
user, saves 20 points and saves the status; the second reads the user, now at
20, saves 40 points and saves the status.  Both answer with the approved
submission and the student holds 40 points, two credits.  Served one after
the other the same two requests leave 20 points. -/
theorem concurrent_approvals_credit_twice :
    (findSubmission pendingStore 100).map (fun x => (x.student, x.task, x.status)) =
      some (7, 1, Status.pending) ∧
    (findUser pendingStore 7).map (fun u => u.points) = some 0 ∧
    (findTask pendingStore 1).map (fun t => t.points) = some (some 20) ∧
    (interleave pendingStore (ReviewRun.start 100 "approved") (ReviewRun.start 100 "approved")
      [false, true, false, false, false, true, true, true]).2.1.response =
      some (.ok ⟨100, 7, 1, "/uploads/f.png", .approved, ["car"], 0, 5⟩) ∧
    (interleave pendingStore (ReviewRun.start 100 "approved") (ReviewRun.start 100 "approved")
      [false, true, false, false, false, true, true, true]).2.2.response =
      some (.ok ⟨100, 7, 1, "/uploads/f.png", .approved, ["car"], 0, 5⟩) ∧
    (findUser (interleave pendingStore (ReviewRun.start 100 "approved")
      (ReviewRun.start 100 "approved")
      [false, true, false, false, false, true, true, true]).1 7).map (fun u => u.points) =
      some 40 ∧
    (findUser (interleave pendingStore (ReviewRun.start 100 "approved")
      (ReviewRun.start 100 "approved")
      [false, false, false, false, true, true, true, true]).1 7).map (fun u => u.points) =
      some 20 := by
  decide

/-! ## The stub labeler -/

theorem stub_labels (toLowerCase : String → String) (expectedLabels : List String) :
    (labelDetectionWithScore toLowerCase stubAnnotations expectedLabels).labels =
      ["tree", "plant", "environment"] := rfl

theorem stub_match_iff (toLowerCase : String → String) (expectedLabels : List String) :
    (∃ a ∈ stubAnnotations, ∃ e ∈ expectedLabels, toLowerCase a.description = toLowerCase e) ↔
      ∃ l ∈ ["tree", "plant", "environment"], ∃ e ∈ expectedLabels,
        toLowerCase l = toLowerCase e := by
  simp [stubAnnotations]

/-- The scores of the stub labeler for each set of its labels that a task may
expect. -/
theorem stub_scores :
    (labelDetectionWithScore asciiLower stubAnnotations ["tree"]).aiScore = 90 ∧
    (labelDetectionWithScore asciiLower stubAnnotations ["plant"]).aiScore = 82 ∧
    (labelDetectionWithScore asciiLower stubAnnotations ["environment"]).aiScore = 75 ∧
    (labelDetectionWithScore asciiLower stubAnnotations ["tree", "plant"]).aiScore = 86 ∧
    (labelDetectionWithScore asciiLower stubAnnotations ["tree", "environment"]).aiScore = 83 ∧
    (labelDetectionWithScore asciiLower stubAnnotations ["plant", "environment"]).aiScore = 78 ∧
    (labelDetectionWithScore asciiLower stubAnnotations
      ["tree", "plant", "environment"]).aiScore = 82 := by
  decide

theorem stub_percent_ge (p : Annotation → Bool)
    (h : (stubAnnotations.filter p).map (fun a => a.score) ≠ []) :
    75 ≤ Math_round (percentMean ((stubAnnotations.filter p).map (fun a => a.score))) := by
  unfold stubAnnotations at h ⊢
  cases h1 : p ⟨"tree", Dbl.ofDecimal 90 100⟩ <;>
    cases h2 : p ⟨"plant", Dbl.ofDecimal 82 100⟩ <;>
    cases h3 : p ⟨"environment", Dbl.ofDecimal 75 100⟩ <;>
    simp only [List.filter, h1, h2, h3, List.map] at h ⊢ <;>
    first
    | exact absurd rfl h
    | decide

theorem stub_aiScore_ge (toLowerCase : String → String) (expectedLabels : List String)
    (h : matchedScores toLowerCase stubAnnotations expectedLabels ≠ []) :
    75 ≤ (labelDetectionWithScore toLowerCase stubAnnotations expectedLabels).aiScore := by
  rw [aiScore_of_ne_nil toLowerCase stubAnnotations expectedLabels h]
  exact stub_percent_ge _ h

/-- C16: with the stub labeler, for every stored task the submission the
creation handler persists carries the labels `tree`, `plant`, `environment`;
if some expected label of the task equals one of these case-insensitively the
score is at least 75 and the status `approved`, otherwise the score is 0 and
the status `pending`; so the status is `approved` exactly when a label
matches, whatever the threshold of 60.  Seeding an empty database stores the
three demo tasks, and of these only "Plant a Sapling" is approved. -/
theorem stub_labeler_decision (toLowerCase : String → String) (s : Store)
    (userId taskId : Nat) (f : UploadedFile) (now : Nat) (task : Task)
    (hT : findTask s taskId = some task) :
    (∃ sub : Submission,
      (createSubmission toLowerCase s userId taskId (some f) stubAnnotations now).1.submissions =
        s.submissions ++ [sub] ∧
      sub.labels = ["tree", "plant", "environment"] ∧
      sub.aiScore = (mockLabelDetectionWithScore toLowerCase f.path task.expectedLabels).aiScore ∧
      ((∃ l ∈ ["tree", "plant", "environment"], ∃ e ∈ task.expectedLabels,
          toLowerCase l = toLowerCase e) → 75 ≤ sub.aiScore ∧ sub.status = .approved) ∧
      ((¬ ∃ l ∈ ["tree", "plant", "environment"], ∃ e ∈ task.expectedLabels,
          toLowerCase l = toLowerCase e) → sub.aiScore = 0 ∧ sub.status = .pending) ∧
      (sub.status = .approved ↔
        ∃ l ∈ ["tree", "plant", "environment"], ∃ e ∈ task.expectedLabels,
          toLowerCase l = toLowerCase e)) ∧
    (seedDemoTasks emptyStore).tasks.map (fun t => t.title) =
      ["Plant a Sapling", "Clean Your Classroom Area", "Cycle or Walk to College"] ∧
    (∀ t ∈ (seedDemoTasks emptyStore).tasks, ∀ (s1 : Store) (uid tid : Nat) (g : UploadedFile)
      (n : Nat),
      (newSubmission asciiLower s1 uid tid t g stubAnnotations n).status = .approved ↔
        t.title = "Plant a Sapling") := by
  have hyes : ∀ (lower : String → String) (E : List String),
      (∃ l ∈ ["tree", "plant", "environment"], ∃ e ∈ E, lower l = lower e) →
      75 ≤ (labelDetectionWithScore lower stubAnnotations E).aiScore ∧
      initialStatus (labelsMatched lower ["tree", "plant", "environment"] E)
        (labelDetectionWithScore lower stubAnnotations E).aiScore = .approved := by
    intro lower E hm
    have hne : matchedScores lower stubAnnotations E ≠ [] := fun hnil =>
      (matchedScores_eq_nil_iff lower stubAnnotations E).mp hnil
        ((stub_match_iff lower E).mpr hm)
    have h75 := stub_aiScore_ge lower E hne
    refine ⟨h75, (initialStatus_eq_approved _ _).mpr ⟨(labelsMatched_iff _ _ _).mpr hm, ?_⟩⟩
    omega
  have hno : ∀ (lower : String → String) (E : List String),
      (¬ ∃ l ∈ ["tree", "plant", "environment"], ∃ e ∈ E, lower l = lower e) →
      (labelDetectionWithScore lower stubAnnotations E).aiScore = 0 ∧
      initialStatus (labelsMatched lower ["tree", "plant", "environment"] E)
        (labelDetectionWithScore lower stubAnnotations E).aiScore = .pending := by
    intro lower E hm
    have h0 := aiScore_of_nil lower stubAnnotations E
      ((matchedScores_eq_nil_iff lower stubAnnotations E).mpr
        (fun h => hm ((stub_match_iff lower E).mp h)))
    refine ⟨h0, ?_⟩
    rw [h0]
    simp [initialStatus]
  have hiff : ∀ (lower : String → String) (E : List String),
      initialStatus (labelsMatched lower ["tree", "plant", "environment"] E)
        (labelDetectionWithScore lower stubAnnotations E).aiScore = .approved ↔
      ∃ l ∈ ["tree", "plant", "environment"], ∃ e ∈ E, lower l = lower e := by
    intro lower E
    constructor
    · intro ha
      by_contra hm
      rw [(hno lower E hm).2] at ha
      cases ha
    · intro hm
      exact (hyes lower E hm).2
  refine ⟨⟨newSubmission toLowerCase s userId taskId task f stubAnnotations now,
    createSubmission_submissions toLowerCase s userId taskId f stubAnnotations now task hT,
    rfl, rfl, hyes toLowerCase task.expectedLabels, hno toLowerCase task.expectedLabels,
    hiff toLowerCase task.expectedLabels⟩, by decide, ?_⟩
  intro t ht s1 uid tid g n
  have hst : (newSubmission asciiLower s1 uid tid t g stubAnnotations n).status =
      initialStatus (labelsMatched asciiLower ["tree", "plant", "environment"] t.expectedLabels)
        (labelDetectionWithScore asciiLower stubAnnotations t.expectedLabels).aiScore := rfl
  rw [hst, hiff asciiLower t.expectedLabels]
  have htasks : (seedDemoTasks emptyStore).tasks =
      [{ _id := 1, title := "Plant a Sapling"
         description :=
           "Plant a sapling in your home, hostel, or neighbourhood and water it regularly."
         category := "Plantation", points := some 20, expectedLabels := ["tree", "plant", "garden"]
         deadline := none, isActive := true, createdBy := none },
       { _id := 2, title := "Clean Your Classroom Area"
         description :=
           "Collect litter around your classroom or lab and put it in the dustbin."
         category := "Waste Management", points := some 15
         expectedLabels := ["trash", "litter", "bin"]
         deadline := none, isActive := true, createdBy := none },
       { _id := 3, title := "Cycle or Walk to College"
         description :=
           "Use a bicycle or walk instead of a motorbike for at least one trip to college."
         category := "Energy Saving", points := some 25
         expectedLabels := ["bicycle", "bike", "cycle"]
         deadline := none, isActive := true, createdBy := none }] := by
    decide
  rw [htasks] at ht
  simp only [List.mem_cons, List.mem_singleton, List.not_mem_nil, or_false] at ht
  rcases ht with rfl | rfl | rfl <;> decide

/-- Witness of C16: the sapling task in the demo store. -/
theorem stub_labeler_decision_witness :
    findTask demoStore 1 = some saplingTask ∧
    ∃ sub : Submission,
      (createSubmission asciiLower demoStore 7 1 (some demoFile) stubAnnotations 5).1.submissions =
        demoStore.submissions ++ [sub] ∧
      sub.labels = ["tree", "plant", "environment"] ∧
      sub.aiScore =
        (mockLabelDetectionWithScore asciiLower demoFile.path saplingTask.expectedLabels).aiScore ∧
      ((∃ l ∈ ["tree", "plant", "environment"], ∃ e ∈ saplingTask.expectedLabels,
          asciiLower l = asciiLower e) → 75 ≤ sub.aiScore ∧ sub.status = .approved) ∧
      ((¬ ∃ l ∈ ["tree", "plant", "environment"], ∃ e ∈ saplingTask.expectedLabels,
          asciiLower l = asciiLower e) → sub.aiScore = 0 ∧ sub.status = .pending) ∧
      (sub.status = .approved ↔
        ∃ l ∈ ["tree", "plant", "environment"], ∃ e ∈ saplingTask.expectedLabels,
          asciiLower l = asciiLower e) :=
  ⟨by decide,
    (stub_labeler_decision asciiLower demoStore 7 1 demoFile 5 saplingTask (by decide)).1⟩


end EcoGamify
